import Mathlib

/-!
Verification of the photometric streak-analysis program in
src/FotometriaV1.py against its natural-language specification.

The embedding below is a shallow model of the program's arithmetic and
control flow.  Conventions used throughout:

* Python floats are modelled as exact rationals (`ℚ`); values whose source
  computation goes through `sqrt`, `log10` or `arctan2` are modelled in `ℝ`.
* A Python value of `np.nan` ("undefined") is modelled as `Option.none`.
* External library calls (photutils aperture sums and areas, astropy
  sigma-clipped statistics, the streak detector) are inputs to the model,
  mirroring the spec's treatment of them as external collaborators.
* A FITS header is a partial map from key strings to numeric values plus an
  optional parsed DATE-OBS timestamp (modelled as seconds, a rational).
-/

namespace Fotometria

/-! ### FITS header access (FotometriaV1.py lines 829-835, 1506-1522, 1536-1544) -/

/-- Model of a FITS header: a partial assignment of numeric values to keys,
plus the optional parsed DATE-OBS timestamp (seconds since the session
epoch, kept exact as a rational). -/
structure Header where
  find? : String → Option ℚ
  dateObs? : Option ℚ

/-- Model of Python's dict-style access with a default: hdr.get(k, d). -/
def Header.get (h : Header) (k : String) (d : ℚ) : ℚ :=
  (h.find? k).getD d

/-- Source line 831: gain = hdr.get('GAIN', hdr.get('EGAIN', 1.0)). -/
def gain_of (h : Header) : ℚ := h.get "GAIN" (h.get "EGAIN" 1)

/-- Source line 832: readnoise = hdr.get('RDNOISE', hdr.get('READNOISE', 10.0)). -/
def readnoise_of (h : Header) : ℚ := h.get "RDNOISE" (h.get "READNOISE" 10)

/-- Source line 833: zp = hdr.get('ZEROPT', hdr.get('MAGZERO', 25.0)). -/
def zp_of (h : Header) : ℚ := h.get "ZEROPT" (h.get "MAGZERO" 25)

/-- Source line 834: exptime = hdr.get('EXPTIME', 0.9). -/
def exptime_of (h : Header) : ℚ := h.get "EXPTIME" (9/10)

/-- Source line 835: saturation_limit = hdr.get('SATURATE', 65535). -/
def saturation_of (h : Header) : ℚ := h.get "SATURATE" 65535

/-- Model of extrair_tempo_fits (lines 1506-1522): returns the optional
DATE-OBS timestamp and the exposure time read with header.get('EXPTIME', 1.0).
Note the default here is 1.0 second, not the 0.9 used in analyze_photometry. -/
def extrair_tempo_fits (h : Header) : Option ℚ × ℚ :=
  (h.dateObs?, h.get "EXPTIME" 1)

/-- Model of the relative-time computation of adicionar_dados_temporais
(lines 1536-1544): the base timestamp is set on first use, and the relative
time falls back to count * 30.0 seconds when no timestamp is available.
Returns (tempo_relativo, updated base timestamp); count is the number of
exposures accumulated so far. -/
def adicionar_tempo (ts? base? : Option ℚ) (count : ℕ) : ℚ × Option ℚ :=
  match ts? with
  | none => ((count : ℚ) * 30, base?)
  | some t =>
    match base? with
    | none => (t - t, some t)
    | some b => (t - b, some b)

/-! ### Sample points along the confirmed streak (confirm_streak, lines 708-714) -/

/-- Model of the equidistant analysis-point generation in confirm_streak:
for i in range(n): t = i/(n-1); point = (x1 + t*(x2-x1), y1 + t*(y2-y1)). -/
def analysis_points (x1 y1 x2 y2 : ℚ) (n : ℕ) : List (ℚ × ℚ) :=
  (List.range n).map (fun i : ℕ =>
    (x1 + ((i : ℚ) / ((n : ℚ) - 1)) * (x2 - x1),
     y1 + ((i : ℚ) / ((n : ℚ) - 1)) * (y2 - y1)))

/-! ### Continuous time axis (criar_eixo_temporal_continuo, lines 1567-1598) -/

/-- Model of np.linspace(a, b, n): n points from a to b inclusive.  For n = 1
the division by zero conventionally yields a, matching numpy's single-point
behaviour; for n = 0 the list is empty. -/
def linspace (a b : ℚ) (n : ℕ) : List ℚ :=
  (List.range n).map (fun i : ℕ => a + (i : ℚ) * (b - a) / ((n : ℚ) - 1))

/-- One accumulated exposure record, keeping only the fields that
criar_eixo_temporal_continuo consumes: the optional timestamp, the fallback
relative time, the exposure duration and the number of sample points. -/
structure ExposureRecord where
  timestamp? : Option ℚ
  tempo_relativo : ℚ
  exp_time : ℚ
  n_pontos : ℕ
deriving Inhabited

/-- Kind-tagged sort key: line 1576's key is a pd.Timestamp for records with
DATE-OBS and a Python float otherwise, and the two kinds are not comparable
in Python. -/
inductive SortKey where
  | timestamp (t : ℚ)
  | fallback (v : ℚ)
deriving DecidableEq

/-- Sort key of line 1576: x['timestamp'] if x['timestamp'] is not None
else x['tempo_relativo'], keeping its Python type (Timestamp or float). -/
def sort_key (r : ExposureRecord) : SortKey :=
  match r.timestamp? with
  | some t => SortKey.timestamp t
  | none => SortKey.fallback r.tempo_relativo

/-- Python comparison of two sort keys: defined within one kind, a TypeError
(none) across kinds. -/
def key_le? : SortKey → SortKey → Option Bool
  | SortKey.timestamp a, SortKey.timestamp b => some (decide (a ≤ b))
  | SortKey.fallback a, SortKey.fallback b => some (decide (a ≤ b))
  | _, _ => none

/-- Underlying rational of a sort key, ordering a kind-homogeneous
collection the way Python does. -/
def key_val : SortKey → ℚ
  | SortKey.timestamp t => t
  | SortKey.fallback v => v

/-- True when the collection mixes records with and without timestamps: on
such a collection sorted() compares a Timestamp with a float and raises
TypeError. -/
def mixed_keys (rs : List ExposureRecord) : Bool :=
  rs.any (fun r => r.timestamp?.isSome) && rs.any (fun r => r.timestamp?.isNone)

/-- The inner loop of criar_eixo_temporal_continuo: for each record, linearly
space its sample times over [tempo_acumulado, tempo_acumulado + exp_time] and
advance tempo_acumulado by exp_time (no gap inserted). -/
def eixo_aux : List ExposureRecord → ℚ → List (List ℚ)
  | [], _ => []
  | r :: rest, t => linspace t (t + r.exp_time) r.n_pontos :: eixo_aux rest (t + r.exp_time)

/-- Model of criar_eixo_temporal_continuo (lines 1567-1598): ok none when no
data has been accumulated; a TypeError when the records mix timestamped and
timestamp-less entries, since sorted() at line 1575-1576 then compares a
Timestamp with a float; otherwise the per-exposure time arrays plus the
records sorted by their (kind-homogeneous) keys. -/
def criar_eixo_temporal_continuo (rs : List ExposureRecord) :
    Except String (Option (List (List ℚ) × List ExposureRecord)) :=
  if rs.isEmpty then Except.ok none
  else if mixed_keys rs then
    Except.error "TypeError: Timestamp and float are not comparable"
  else
    let ord := rs.mergeSort (fun a b => decide (key_val (sort_key a) ≤ key_val (sort_key b)))
    Except.ok (some (eixo_aux ord 0, ord))

/-- Cumulative start time of the k-th sorted exposure: the sum of the
exposure durations before it. -/
def tempo_acumulado (rs : List ExposureRecord) (k : ℕ) : ℚ :=
  ((rs.take k).map (fun r => r.exp_time)).sum

/-! ### Helper lemmas -/

lemma getD_map_range {α : Type} (f : ℕ → α) (n i : ℕ) (d : α) (h : i < n) :
    (((List.range n).map f).getD i d) = f i := by
  rw [List.getD_eq_getElem?_getD, List.getElem?_map, List.getElem?_range h]
  rfl

lemma linspace_length (a b : ℚ) (n : ℕ) : (linspace a b n).length = n := by
  rw [linspace, List.length_map, List.length_range]

lemma linspace_getD (a b : ℚ) (n i : ℕ) (h : i < n) :
    (linspace a b n).getD i 0 = a + (i : ℚ) * (b - a) / ((n : ℚ) - 1) := by
  unfold linspace
  exact getD_map_range _ n i 0 h

lemma sub_one_ne_zero_of_two_le (n : ℕ) (h : 2 ≤ n) : ((n : ℚ) - 1) ≠ 0 := by
  have h2 : (2 : ℚ) ≤ (n : ℚ) := by exact_mod_cast h
  intro hc
  nlinarith

lemma linspace_head (a b : ℚ) (n : ℕ) (h : 1 ≤ n) :
    (linspace a b n).head? = some a := by
  unfold linspace
  rw [List.head?_eq_getElem?, List.getElem?_map, List.getElem?_range (show 0 < n by omega)]
  norm_num

lemma linspace_getLast (a b : ℚ) (n : ℕ) (h : 2 ≤ n) :
    (linspace a b n).getLast? = some b := by
  unfold linspace
  rw [List.getLast?_eq_getElem?, List.length_map, List.length_range,
    List.getElem?_map, List.getElem?_range (show n - 1 < n by omega)]
  have hcast : ((n - 1 : ℕ) : ℚ) = (n : ℚ) - 1 := by
    have h1 : 1 ≤ n := by omega
    push_cast [h1]
    ring
  rw [Option.map_some', hcast]
  have hne := sub_one_ne_zero_of_two_le n h
  congr 1
  field_simp

/-! ### C5: equidistant sample points -/

/-- C5: for every endpoint pair and every point count N ≥ 3, exactly N
analysis points are generated by the formula point i = (x1 + (i/(N-1))(x2-x1),
y1 + (i/(N-1))(y2-y1)); point 0 is the first endpoint, point N-1 is the
second endpoint exactly, and consecutive points differ by the constant
vector ((x2-x1)/(N-1), (y2-y1)/(N-1)). -/
theorem analysis_points_spec (x1 y1 x2 y2 : ℚ) (n : ℕ) (h : 3 ≤ n) :
    (analysis_points x1 y1 x2 y2 n).length = n ∧
    (∀ i, i < n → (analysis_points x1 y1 x2 y2 n).getD i (0, 0) =
      (x1 + ((i : ℚ) / ((n : ℚ) - 1)) * (x2 - x1),
       y1 + ((i : ℚ) / ((n : ℚ) - 1)) * (y2 - y1))) ∧
    (analysis_points x1 y1 x2 y2 n).getD 0 (0, 0) = (x1, y1) ∧
    (analysis_points x1 y1 x2 y2 n).getD (n - 1) (0, 0) = (x2, y2) ∧
    (∀ i, i + 1 < n →
      (analysis_points x1 y1 x2 y2 n).getD (i + 1) (0, 0) -
        (analysis_points x1 y1 x2 y2 n).getD i (0, 0) =
      ((x2 - x1) / ((n : ℚ) - 1), (y2 - y1) / ((n : ℚ) - 1))) := by
  have hne : ((n : ℚ) - 1) ≠ 0 := sub_one_ne_zero_of_two_le n (by omega)
  have hforma : ∀ i, i < n → (analysis_points x1 y1 x2 y2 n).getD i (0, 0) =
      (x1 + ((i : ℚ) / ((n : ℚ) - 1)) * (x2 - x1),
       y1 + ((i : ℚ) / ((n : ℚ) - 1)) * (y2 - y1)) := by
    intro i hi
    unfold analysis_points
    exact getD_map_range _ n i (0, 0) hi
  refine ⟨by rw [analysis_points, List.length_map, List.length_range], hforma, ?_, ?_, ?_⟩
  · rw [hforma 0 (by omega)]
    norm_num
  · rw [hforma (n - 1) (by omega)]
    have hcast : ((n - 1 : ℕ) : ℚ) = (n : ℚ) - 1 := by
      have h1 : 1 ≤ n := by omega
      push_cast [h1]
      ring
    rw [hcast, div_self hne]
    norm_num
  · intro i hi
    rw [hforma (i + 1) (by omega), hforma i (by omega)]
    have : ((i + 1 : ℕ) : ℚ) = (i : ℚ) + 1 := by push_cast; ring
    rw [Prod.mk_sub_mk, this, Prod.mk.injEq]
    constructor
    · field_simp
      ring
    · field_simp
      ring

/-- Witness for C5 at the concrete input (0,0)-(2,4) with N = 3. -/
theorem analysis_points_spec_witness :
    (analysis_points 0 0 2 4 3).length = 3 ∧
    (∀ i, i < 3 → (analysis_points 0 0 2 4 3).getD i (0, 0) =
      (0 + ((i : ℚ) / ((3 : ℚ) - 1)) * (2 - 0),
       0 + ((i : ℚ) / ((3 : ℚ) - 1)) * (4 - 0))) ∧
    (analysis_points 0 0 2 4 3).getD 0 (0, 0) = (0, 0) ∧
    (analysis_points 0 0 2 4 3).getD (3 - 1) (0, 0) = (2, 4) ∧
    (∀ i, i + 1 < 3 →
      (analysis_points 0 0 2 4 3).getD (i + 1) (0, 0) -
        (analysis_points 0 0 2 4 3).getD i (0, 0) =
      ((2 - 0) / ((3 : ℚ) - 1), (4 - 0) / ((3 : ℚ) - 1))) :=
  analysis_points_spec 0 0 2 4 3 (by norm_num)

/-! ### C4: continuous time axis -/

lemma eixo_aux_length (rs : List ExposureRecord) (t : ℚ) :
    (eixo_aux rs t).length = rs.length := by
  induction rs generalizing t with
  | nil => rfl
  | cons r rest ih => simp [eixo_aux, ih]

lemma tempo_acumulado_zero (rs : List ExposureRecord) : tempo_acumulado rs 0 = 0 := by
  simp [tempo_acumulado]

lemma tempo_acumulado_cons (r : ExposureRecord) (rest : List ExposureRecord) (k : ℕ) :
    tempo_acumulado (r :: rest) (k + 1) = r.exp_time + tempo_acumulado rest k := by
  simp [tempo_acumulado, List.take_succ_cons]

lemma eixo_aux_getD (rs : List ExposureRecord) (t : ℚ) (k : ℕ) (h : k < rs.length) :
    (eixo_aux rs t).getD k [] =
      linspace (t + tempo_acumulado rs k)
        (t + tempo_acumulado rs k + (rs.getD k default).exp_time)
        (rs.getD k default).n_pontos := by
  induction rs generalizing t k with
  | nil => simp at h
  | cons r rest ih =>
    cases k with
    | zero => simp [eixo_aux, tempo_acumulado_zero]
    | succ k =>
      have hk : k < rest.length := by simpa using h
      have := ih (t + r.exp_time) k hk
      simp only [eixo_aux, List.getD_cons_succ, tempo_acumulado_cons, this]
      ring_nf

lemma tempo_acumulado_succ (rs : List ExposureRecord) (k : ℕ) (h : k < rs.length) :
    tempo_acumulado rs (k + 1) = tempo_acumulado rs k + (rs.getD k default).exp_time := by
  induction rs generalizing k with
  | nil => simp at h
  | cons r rest ih =>
    cases k with
    | zero => simp [tempo_acumulado_cons, tempo_acumulado_zero, tempo_acumulado, List.take_succ_cons]
    | succ k =>
      have hk : k < rest.length := by simpa using h
      rw [tempo_acumulado_cons, ih k hk, tempo_acumulado_cons, List.getD_cons_succ]
      ring

/-- C4 (amended): on a collection of accumulated records that is homogeneous
in timestamp presence (every record has a timestamp, or none does), the
continuous time axis sorts the records by their key (timestamp, falling back
to the relative time), spaces each exposure's sample times linearly over
[cumulative, cumulative + exp_time] and advances the cumulative time by
exp_time with no gap, so the last sample time of each exposure equals the
first sample time of the next; on a mixed collection the source's sorted()
raises TypeError instead. -/
theorem eixo_temporal_continuo_spec (rs : List ExposureRecord)
    (hne : rs ≠ []) (hmix : mixed_keys rs = false) (hn : ∀ r ∈ rs, 2 ≤ r.n_pontos) :
    ∃ axis ord, criar_eixo_temporal_continuo rs = Except.ok (some (axis, ord)) ∧
      ord.Pairwise (fun a b => key_le? (sort_key a) (sort_key b) = some true) ∧
      ord.length = rs.length ∧
      axis.length = rs.length ∧
      (∀ k, k < rs.length →
        axis.getD k [] =
          linspace (tempo_acumulado ord k)
            (tempo_acumulado ord k + (ord.getD k default).exp_time)
            (ord.getD k default).n_pontos) ∧
      (∀ k, k + 1 < rs.length →
        (axis.getD k []).getLast? = some (tempo_acumulado ord (k + 1)) ∧
        (axis.getD (k + 1) []).head? = some (tempo_acumulado ord (k + 1))) := by
  have hperm : List.Perm
      (rs.mergeSort (fun a b => decide (key_val (sort_key a) ≤ key_val (sort_key b)))) rs :=
    List.mergeSort_perm rs _
  set ord := rs.mergeSort (fun a b => decide (key_val (sort_key a) ≤ key_val (sort_key b)))
    with hord
  have hlen : ord.length = rs.length := hperm.length_eq
  have hnord : ∀ r ∈ ord, 2 ≤ r.n_pontos := fun r hr => hn r (hperm.mem_iff.mp hr)
  have hhomo : (∀ r ∈ rs, ∃ t, r.timestamp? = some t) ∨ (∀ r ∈ rs, r.timestamp? = none) := by
    unfold mixed_keys at hmix
    by_cases hs : rs.any (fun r => r.timestamp?.isSome) = true
    · left
      have hn2 : rs.any (fun r => r.timestamp?.isNone) = false := by
        cases hAn : rs.any (fun r => r.timestamp?.isNone) with
        | false => rfl
        | true => rw [hs, hAn] at hmix; simp at hmix
      intro r hr
      have hr2 := List.any_eq_false.mp hn2 r hr
      cases hts : r.timestamp? with
      | none => rw [hts] at hr2; simp at hr2
      | some t => exact ⟨t, rfl⟩
    · right
      have hs2 : rs.any (fun r => r.timestamp?.isSome) = false := by
        cases hAs : rs.any (fun r => r.timestamp?.isSome) with
        | false => rfl
        | true => exact absurd hAs hs
      intro r hr
      have hr2 := List.any_eq_false.mp hs2 r hr
      cases hts : r.timestamp? with
      | none => rfl
      | some t => rw [hts] at hr2; simp at hr2
  have hgetD : ∀ k, k < rs.length →
      (eixo_aux ord 0).getD k [] =
        linspace (tempo_acumulado ord k)
          (tempo_acumulado ord k + (ord.getD k default).exp_time)
          (ord.getD k default).n_pontos := by
    intro k hk
    have := eixo_aux_getD ord 0 k (by omega)
    simpa using this
  have hmem : ∀ k, k < rs.length → ord.getD k default ∈ ord := by
    intro k hk
    have hk2 : k < ord.length := by rw [hlen]; exact hk
    rw [List.getD_eq_getElem ord default hk2]
    exact List.getElem_mem _
  refine ⟨eixo_aux ord 0, ord, ?_, ?_, hlen, ?_, hgetD, ?_⟩
  · rw [criar_eixo_temporal_continuo, if_neg (by simpa using hne)]
    rw [if_neg (by rw [hmix]; exact Bool.false_ne_true)]
  · have hp := @List.sorted_mergeSort ExposureRecord
      (fun a b => decide (key_val (sort_key a) ≤ key_val (sort_key b)))
      (fun a b c hab hbc => by
        simp only [decide_eq_true_eq] at *
        exact le_trans hab hbc)
      (fun a b => by
        simp only [Bool.or_eq_true, decide_eq_true_eq]
        exact le_total _ _) rs
    refine hp.imp_of_mem ?_
    intro a b ha hb hab
    have hle : key_val (sort_key a) ≤ key_val (sort_key b) := of_decide_eq_true hab
    have ha2 : a ∈ rs := hperm.mem_iff.mp ha
    have hb2 : b ∈ rs := hperm.mem_iff.mp hb
    rcases hhomo with hall | hall
    · obtain ⟨ta, hta⟩ := hall a ha2
      obtain ⟨tb, htb⟩ := hall b hb2
      have hsa : sort_key a = SortKey.timestamp ta := by unfold sort_key; rw [hta]
      have hsb : sort_key b = SortKey.timestamp tb := by unfold sort_key; rw [htb]
      rw [hsa, hsb] at hle ⊢
      simp only [key_val] at hle
      simp only [key_le?]
      rw [decide_eq_true hle]
    · have hsa : sort_key a = SortKey.fallback a.tempo_relativo := by
        unfold sort_key; rw [hall a ha2]
      have hsb : sort_key b = SortKey.fallback b.tempo_relativo := by
        unfold sort_key; rw [hall b hb2]
      rw [hsa, hsb] at hle ⊢
      simp only [key_val] at hle
      simp only [key_le?]
      rw [decide_eq_true hle]
  · rw [eixo_aux_length, hlen]
  · intro k hk
    have h2 : 2 ≤ (ord.getD k default).n_pontos := hnord _ (hmem k (by omega))
    have h2s : 2 ≤ (ord.getD (k + 1) default).n_pontos := hnord _ (hmem (k + 1) hk)
    constructor
    · rw [hgetD k (by omega), linspace_getLast _ _ _ h2,
        tempo_acumulado_succ ord k (by omega)]
    · rw [hgetD (k + 1) hk, linspace_head _ _ _ (by omega)]

/-- Counterexample for C4 as stated: on a collection mixing a record without
a timestamp and a record with one, line 1576's sort key is a float for the
first and a Timestamp for the second, the two are not comparable, and the
source raises TypeError instead of producing a time axis. -/
theorem eixo_temporal_mixed_counterexample :
    criar_eixo_temporal_continuo [⟨none, 0, 5, 3⟩, ⟨some 100, 3, 2, 4⟩] =
      Except.error "TypeError: Timestamp and float are not comparable" ∧
    key_le? (sort_key ⟨none, 0, 5, 3⟩) (sort_key ⟨some 100, 3, 2, 4⟩) = none := by
  constructor
  · rfl
  · rfl

/-- Witness for C4 (amended) at a concrete homogeneous two-exposure input
(neither record has a timestamp). -/
theorem eixo_temporal_continuo_spec_witness :
    ∃ axis ord,
      criar_eixo_temporal_continuo
        [⟨none, 0, 5, 3⟩, ⟨none, 60, 2, 4⟩] = Except.ok (some (axis, ord)) ∧
      axis.length = 2 := by
  obtain ⟨axis, ord, h1, _, _, h4, _⟩ :=
    eixo_temporal_continuo_spec [⟨none, 0, 5, 3⟩, ⟨none, 60, 2, 4⟩]
      (List.cons_ne_nil _ _)
      rfl
      (by
        intro r hr
        simp only [List.mem_cons, List.mem_singleton] at hr
        rcases hr with h | h | h
        · rw [h]
          decide
        · rw [h]
          decide
        · simp at h)
  exact ⟨axis, ord, h1, h4⟩

/-! ### C10: header key preferences and fallback defaults -/

/-- C10 (amended): header metadata is read with preferences GAIN else EGAIN
else 1.0, RDNOISE else READNOISE else 10.0, ZEROPT else MAGZERO else 25.0,
EXPTIME else 0.9 s, SATURATE else 65535 in analyze_photometry, and an absent
DATE-OBS makes the relative time fall back to count * 30 s; however the
temporal extraction routine extrair_tempo_fits reads EXPTIME with a default
of 1.0 s, not 0.9 s. -/
theorem header_defaults_spec (h : Header) (count : ℕ) :
    (h.find? "GAIN" = none → h.find? "EGAIN" = none → gain_of h = 1) ∧
    (∀ g, h.find? "GAIN" = some g → gain_of h = g) ∧
    (∀ g, h.find? "GAIN" = none → h.find? "EGAIN" = some g → gain_of h = g) ∧
    (h.find? "RDNOISE" = none → h.find? "READNOISE" = none → readnoise_of h = 10) ∧
    (∀ r, h.find? "RDNOISE" = some r → readnoise_of h = r) ∧
    (∀ r, h.find? "RDNOISE" = none → h.find? "READNOISE" = some r → readnoise_of h = r) ∧
    (h.find? "ZEROPT" = none → h.find? "MAGZERO" = none → zp_of h = 25) ∧
    (∀ z, h.find? "ZEROPT" = some z → zp_of h = z) ∧
    (∀ z, h.find? "ZEROPT" = none → h.find? "MAGZERO" = some z → zp_of h = z) ∧
    (h.find? "EXPTIME" = none → exptime_of h = 9/10) ∧
    (∀ e, h.find? "EXPTIME" = some e → exptime_of h = e) ∧
    (h.find? "SATURATE" = none → saturation_of h = 65535) ∧
    (∀ s, h.find? "SATURATE" = some s → saturation_of h = s) ∧
    (h.dateObs? = none → ∀ b, (adicionar_tempo h.dateObs? b count).1 = (count : ℚ) * 30) ∧
    (h.find? "EXPTIME" = none → (extrair_tempo_fits h).2 = 1) ∧
    (∀ e, h.find? "EXPTIME" = some e → (extrair_tempo_fits h).2 = e) := by
  refine ⟨fun h1 h2 => ?_, fun v h1 => ?_, fun v h1 h2 => ?_,
    fun h1 h2 => ?_, fun v h1 => ?_, fun v h1 h2 => ?_,
    fun h1 h2 => ?_, fun v h1 => ?_, fun v h1 h2 => ?_,
    fun h1 => ?_, fun v h1 => ?_, fun h1 => ?_, fun v h1 => ?_,
    fun h1 b => ?_, fun h1 => ?_, fun v h1 => ?_⟩ <;>
  first
  | (rcases b with _ | b <;> simp [adicionar_tempo, h1])
  | simp [gain_of, readnoise_of, zp_of, exptime_of, saturation_of,
      extrair_tempo_fits, Header.get, h1, h2]
  | simp [gain_of, readnoise_of, zp_of, exptime_of, saturation_of,
      extrair_tempo_fits, Header.get, h1]

/-- Counterexample for C10 as stated: on a header with no EXPTIME card,
extrair_tempo_fits returns an exposure time of 1.0 s, not the claimed
uniform 0.9 s default. -/
theorem header_defaults_counterexample :
    (extrair_tempo_fits ⟨fun _ => none, none⟩).2 = 1 ∧ (1 : ℚ) ≠ 9/10 := by
  constructor
  · rfl
  · norm_num

/-- Witness for C10 (amended) on the empty header. -/
theorem header_defaults_spec_witness :
    gain_of ⟨fun _ => none, none⟩ = 1 ∧
    readnoise_of ⟨fun _ => none, none⟩ = 10 ∧
    exptime_of ⟨fun _ => none, none⟩ = 9/10 ∧
    (extrair_tempo_fits ⟨fun _ => none, none⟩).2 = 1 ∧
    (adicionar_tempo (Header.dateObs? ⟨fun _ => none, none⟩) none 2).1 = (2 : ℚ) * 30 := by
  have hs := header_defaults_spec ⟨fun _ => none, none⟩ 2
  exact ⟨hs.1 rfl rfl, hs.2.2.2.1 rfl rfl, hs.2.2.2.2.2.2.2.2.2.1 rfl,
    hs.2.2.2.2.2.2.2.2.2.2.2.2.2.2.1 rfl,
    hs.2.2.2.2.2.2.2.2.2.2.2.2.2.1 rfl none⟩

/-! ### Photometry engine (analyze_photometry, lines 819-931) -/

/-- Configuration of one exposure's photometric analysis: the header-derived
parameters of lines 831-835 plus the external photutils aperture/annulus
areas and the global background noise of lines 820-827 (Background2D or the
sigma-clipped fallback), which are inputs to the model. -/
structure PhotConfig where
  gain : ℚ
  readnoise : ℚ
  zp : ℚ
  exptime : ℚ
  saturation_limit : ℚ
  apArea : ℚ
  anArea : ℚ
  globalBkgStd : ℚ

/-- External per-point inputs of the loop body (lines 857-924): the photutils
aperture and annulus sums, the sigma-clipped local standard deviation of the
annulus cutout (none when that call raises, line 883), and the FWHM moment
estimate of the aperture cutout (none when it fails, lines 918-921). -/
structure PointInput where
  aperture_sum : ℚ
  annulus_sum : ℚ
  std_local? : Option ℚ
  fwhm? : Option ℚ

/-- Noise model of lines 888-897: variance in electrons from source, local
background and read noise, converted back to ADU and divided by the exposure
time. -/
noncomputable def flux_rate_error (raw gain area std rn expt : ℚ) : ℝ :=
  Real.sqrt ((max 0 (raw * gain) + area * std ^ 2 * gain + area * rn ^ 2 : ℚ) : ℝ)
    / (gain : ℝ) / (expt : ℝ)

/-- Result record of one sample point.  Values whose source computation is
np.nan are none. -/
structure Sample where
  bkg_mean : ℚ
  raw_adu : ℚ
  rate : ℚ
  is_saturated : Bool
  err_rate : ℝ
  snr : ℝ
  mag : Option ℝ
  mag_err : Option ℝ
  fwhm? : Option ℚ
  local_contrast? : Option ℚ

/-- The loop body of analyze_photometry (lines 857-931) for one sample
point. -/
noncomputable def samplePoint (cfg : PhotConfig) (pt : PointInput) : Sample :=
  let bkg_mean := pt.annulus_sum / cfg.anArea
  let raw_adu := pt.aperture_sum - bkg_mean * cfg.apArea
  let rate := raw_adu / cfg.exptime
  let is_sat := decide (cfg.saturation_limit * (8/10) < raw_adu)
  let std_local := pt.std_local?.getD cfg.globalBkgStd
  let err_rate := flux_rate_error raw_adu cfg.gain cfg.apArea std_local cfg.readnoise cfg.exptime
  let snr : ℝ := if 0 < err_rate then (rate : ℝ) / err_rate else 0
  let mag : Option ℝ :=
    if 0 < rate ∧ is_sat = false then
      some (-(2.5 : ℝ) * Real.logb 10 (rate : ℝ) + (cfg.zp : ℝ))
    else none
  let mag_err : Option ℝ :=
    if 0 < rate ∧ is_sat = false then
      (if 0 < rate then some (((2.5 : ℝ) / Real.log 10) * (err_rate / (rate : ℝ))) else none)
    else none
  let contrast : Option ℚ := if 0 < bkg_mean then some (rate / bkg_mean) else none
  ⟨bkg_mean, raw_adu, rate, is_sat, err_rate, snr, mag, mag_err, pt.fwhm?, contrast⟩

/-- Fatal configuration violations checked at lines 838-843. -/
inductive ConfigError where
  | invalidExptime
  | invalidGain
deriving DecidableEq

/-- The per-point loop of analyze_photometry, accumulating results in order. -/
noncomputable def analyzeLoop (cfg : PhotConfig) : List PointInput → List Sample
  | [] => []
  | pt :: rest => samplePoint cfg pt :: analyzeLoop cfg rest

/-- Model of the sampling phase of analyze_photometry: the configuration
checks of lines 838-843 abort the exposure, otherwise every point is
processed. -/
noncomputable def analyze_photometry (cfg : PhotConfig) (pts : List PointInput) :
    Except ConfigError (List Sample) :=
  if cfg.exptime ≤ 0 then Except.error ConfigError.invalidExptime
  else if cfg.gain ≤ 0 then Except.error ConfigError.invalidGain
  else Except.ok (analyzeLoop cfg pts)

lemma analyzeLoop_eq_map (cfg : PhotConfig) (pts : List PointInput) :
    analyzeLoop cfg pts = pts.map (samplePoint cfg) := by
  induction pts with
  | nil => rfl
  | cons pt rest ih => simp [analyzeLoop, ih]

/-! ### C1: saturation flag and magnitude definedness -/

/-- C1: the saturation flag is set iff the background-subtracted raw aperture
count exceeds 0.8 times the header saturation limit; the magnitude (value
-2.5 log10(flux_rate) + zero_point) and the magnitude error are defined iff
flux_rate > 0 and the flag is false, and are undefined otherwise. -/
theorem saturation_magnitude_spec (cfg : PhotConfig) (pt : PointInput) :
    ((samplePoint cfg pt).is_saturated = true ↔
      cfg.saturation_limit * (8/10) <
        pt.aperture_sum - pt.annulus_sum / cfg.anArea * cfg.apArea) ∧
    ((samplePoint cfg pt).mag.isSome ↔
      0 < (samplePoint cfg pt).rate ∧ (samplePoint cfg pt).is_saturated = false) ∧
    ((samplePoint cfg pt).mag_err.isSome ↔
      0 < (samplePoint cfg pt).rate ∧ (samplePoint cfg pt).is_saturated = false) ∧
    (∀ m, (samplePoint cfg pt).mag = some m →
      m = -(2.5 : ℝ) * Real.logb 10 (((samplePoint cfg pt).rate : ℚ) : ℝ) + (cfg.zp : ℝ)) := by
  have hmag : (samplePoint cfg pt).mag =
      (if 0 < (samplePoint cfg pt).rate ∧ (samplePoint cfg pt).is_saturated = false then
        some (-(2.5 : ℝ) * Real.logb 10 (((samplePoint cfg pt).rate : ℚ) : ℝ) + (cfg.zp : ℝ))
      else none) := rfl
  have hmagerr : (samplePoint cfg pt).mag_err =
      (if 0 < (samplePoint cfg pt).rate ∧ (samplePoint cfg pt).is_saturated = false then
        (if 0 < (samplePoint cfg pt).rate then
          some (((2.5 : ℝ) / Real.log 10) *
            ((samplePoint cfg pt).err_rate / (((samplePoint cfg pt).rate : ℚ) : ℝ)))
        else none)
      else none) := rfl
  refine ⟨?_, ?_, ?_, ?_⟩
  · simp [samplePoint]
  · rw [hmag]
    split_ifs with h
    · simp [h]
    · simp [h]
  · rw [hmagerr]
    split_ifs with h h2
    · simp [h]
    · exact absurd h.1 h2
    · simp [h]
  · intro m hm
    rw [hmag] at hm
    split_ifs at hm with h
    exact (Option.some_inj.mp hm).symm

/-- Witness for C1 at a concrete unsaturated point with positive flux. -/
theorem saturation_magnitude_spec_witness :
    (samplePoint ⟨1, 10, 25, 9/10, 65535, 50, 100, 5⟩ ⟨300, 200, none, none⟩).mag =
      some (-(2.5 : ℝ) *
        Real.logb 10
          (((samplePoint ⟨1, 10, 25, 9/10, 65535, 50, 100, 5⟩ ⟨300, 200, none, none⟩).rate : ℚ) : ℝ)
        + ((25 : ℚ) : ℝ)) := by
  have hs := saturation_magnitude_spec ⟨1, 10, 25, 9/10, 65535, 50, 100, 5⟩ ⟨300, 200, none, none⟩
  have hsome : (samplePoint ⟨1, 10, 25, 9/10, 65535, 50, 100, 5⟩ ⟨300, 200, none, none⟩).mag.isSome := by
    refine hs.2.1.mpr ⟨?_, ?_⟩
    · show (0 : ℚ) < ((300 : ℚ) - 200 / 100 * 50) / (9/10)
      norm_num
    · show decide ((65535 : ℚ) * (8/10) < 300 - 200 / 100 * 50) = false
      rw [decide_eq_false_iff_not]
      norm_num
  obtain ⟨m, hm⟩ := Option.isSome_iff_exists.mp hsome
  rw [hm, hs.2.2.2 m hm]

/-! ### C6: abort conditions and local failure tolerance -/

/-- C6: the analysis aborts iff the exposure time or the gain is
non-positive (with the exposure-time check first); with a valid
configuration every point yields a sample computed from that point's own
inputs alone, so a failure in one point's cutout statistics or FWHM estimate
(a none input) degrades only that sample and never aborts the exposure. -/
theorem analyze_photometry_abort_spec (cfg : PhotConfig) (pts : List PointInput) :
    ((∃ e, analyze_photometry cfg pts = Except.error e) ↔
      cfg.exptime ≤ 0 ∨ cfg.gain ≤ 0) ∧
    (analyze_photometry cfg pts = Except.error ConfigError.invalidExptime ↔
      cfg.exptime ≤ 0) ∧
    (0 < cfg.exptime → 0 < cfg.gain →
      analyze_photometry cfg pts = Except.ok (pts.map (samplePoint cfg))) ∧
    (∀ pt, (samplePoint cfg pt).fwhm? = pt.fwhm?) := by
  refine ⟨?_, ?_, ?_, fun pt => rfl⟩
  · constructor
    · rintro ⟨e, he⟩
      by_contra hc
      push_neg at hc
      rw [analyze_photometry, if_neg (by linarith [hc.1]), if_neg (by linarith [hc.2])] at he
      exact Except.noConfusion he
    · intro hc
      rcases le_or_lt cfg.exptime 0 with h1 | h1
      · exact ⟨ConfigError.invalidExptime, by rw [analyze_photometry, if_pos h1]⟩
      · have h2 : cfg.gain ≤ 0 := by
          rcases hc with h | h
          · linarith
          · exact h
        exact ⟨ConfigError.invalidGain,
          by rw [analyze_photometry, if_neg (by linarith), if_pos h2]⟩
  · constructor
    · intro he
      by_contra hc
      push_neg at hc
      rw [analyze_photometry, if_neg (by linarith)] at he
      by_cases hg : cfg.gain ≤ 0
      · rw [if_pos hg] at he
        exact ConfigError.noConfusion (Except.error.inj he)
      · rw [if_neg hg] at he
        exact Except.noConfusion he
    · intro h1
      rw [analyze_photometry, if_pos h1]
  · intro h1 h2
    rw [analyze_photometry, if_neg (by linarith), if_neg (by linarith),
      analyzeLoop_eq_map]

/-- Witness for C6: a valid configuration together with a point whose cutout
statistics and FWHM estimate both failed still analyzes every point. -/
theorem analyze_photometry_abort_spec_witness :
    analyze_photometry ⟨1, 10, 25, 9/10, 65535, 50, 100, 5⟩
      [⟨300, 200, none, none⟩, ⟨0, 100, some 2, some 3⟩] =
    Except.ok ([⟨300, 200, none, none⟩, ⟨0, 100, some 2, some 3⟩].map
      (samplePoint ⟨1, 10, 25, 9/10, 65535, 50, 100, 5⟩)) :=
  (analyze_photometry_abort_spec ⟨1, 10, 25, 9/10, 65535, 50, 100, 5⟩
    [⟨300, 200, none, none⟩, ⟨0, 100, some 2, some 3⟩]).2.2.1
    (by norm_num) (by norm_num)

/-! ### C9: noise model monotonicity -/

/-- C9: with gain and exposure time positive, the flux-rate error never
decreases when the read noise increases (given a nonnegative aperture area)
or when the aperture area increases. -/
theorem flux_rate_error_monotone (raw gain std expt : ℚ)
    (hg : 0 < gain) (he : 0 < expt) :
    (∀ area rn₁ rn₂, 0 ≤ area → 0 ≤ rn₁ → rn₁ ≤ rn₂ →
      flux_rate_error raw gain area std rn₁ expt ≤
        flux_rate_error raw gain area std rn₂ expt) ∧
    (∀ rn a₁ a₂, 0 ≤ a₁ → a₁ ≤ a₂ →
      flux_rate_error raw gain a₁ std rn expt ≤
        flux_rate_error raw gain a₂ std rn expt) := by
  have hg' : (0 : ℝ) < (gain : ℝ) := by exact_mod_cast hg
  have he' : (0 : ℝ) < (expt : ℝ) := by exact_mod_cast he
  constructor
  · intro area rn₁ rn₂ ha hr1 hr12
    unfold flux_rate_error
    have hq : max 0 (raw * gain) + area * std ^ 2 * gain + area * rn₁ ^ 2 ≤
        max 0 (raw * gain) + area * std ^ 2 * gain + area * rn₂ ^ 2 := by
      have h2 : rn₁ ^ 2 ≤ rn₂ ^ 2 := by nlinarith
      have h3 : area * rn₁ ^ 2 ≤ area * rn₂ ^ 2 := mul_le_mul_of_nonneg_left h2 ha
      linarith
    have h1 : Real.sqrt ((max 0 (raw * gain) + area * std ^ 2 * gain + area * rn₁ ^ 2 : ℚ) : ℝ) ≤
        Real.sqrt ((max 0 (raw * gain) + area * std ^ 2 * gain + area * rn₂ ^ 2 : ℚ) : ℝ) :=
      Real.sqrt_le_sqrt (by exact_mod_cast hq)
    exact (div_le_div_iff_of_pos_right he').mpr ((div_le_div_iff_of_pos_right hg').mpr h1)
  · intro rn a₁ a₂ ha1 ha12
    unfold flux_rate_error
    have hq : max 0 (raw * gain) + a₁ * std ^ 2 * gain + a₁ * rn ^ 2 ≤
        max 0 (raw * gain) + a₂ * std ^ 2 * gain + a₂ * rn ^ 2 := by
      have h2 : a₁ * (std ^ 2 * gain) ≤ a₂ * (std ^ 2 * gain) :=
        mul_le_mul_of_nonneg_right ha12 (mul_nonneg (sq_nonneg std) hg.le)
      have h3 : a₁ * rn ^ 2 ≤ a₂ * rn ^ 2 :=
        mul_le_mul_of_nonneg_right ha12 (sq_nonneg rn)
      nlinarith
    have h1 : Real.sqrt ((max 0 (raw * gain) + a₁ * std ^ 2 * gain + a₁ * rn ^ 2 : ℚ) : ℝ) ≤
        Real.sqrt ((max 0 (raw * gain) + a₂ * std ^ 2 * gain + a₂ * rn ^ 2 : ℚ) : ℝ) :=
      Real.sqrt_le_sqrt (by exact_mod_cast hq)
    exact (div_le_div_iff_of_pos_right he').mpr ((div_le_div_iff_of_pos_right hg').mpr h1)

/-- Witness for C9 at concrete inputs. -/
theorem flux_rate_error_monotone_witness :
    flux_rate_error 10 2 3 1 1 1 ≤ flux_rate_error 10 2 3 1 2 1 ∧
    flux_rate_error 10 2 3 1 4 1 ≤ flux_rate_error 10 2 5 1 4 1 :=
  ⟨(flux_rate_error_monotone 10 2 1 1 (by norm_num) (by norm_num)).1 3 1 2
      (by norm_num) (by norm_num) (by norm_num),
   (flux_rate_error_monotone 10 2 1 1 (by norm_num) (by norm_num)).2 4 3 5
      (by norm_num) (by norm_num)⟩

/-! ### C8: outlier detection (lines 942-961) -/

/-- Valid-sample mask of line 943: positive flux rate, defined magnitude and
not saturated. -/
def validSample (s : Sample) : Bool :=
  decide (0 < s.rate) && s.mag.isSome && !s.is_saturated

/-- The flux rates of the valid samples in order: fluxes[valid]. -/
def validFluxes (samples : List Sample) : List ℚ :=
  (samples.filter validSample).map (fun s => s.rate)

/-- Arithmetic mean used by scipy.stats.zscore and np.nanmean. -/
def mean (xs : List ℚ) : ℚ := xs.sum / (xs.length : ℚ)

/-- Population variance (ddof = 0), the square of the std used by
scipy.stats.zscore. -/
def popVar (xs : List ℚ) : ℚ :=
  ((xs.map (fun x => (x - mean xs) ^ 2)).sum) / (xs.length : ℚ)

/-- Absolute z-score of the i-th value: |x - mean| / std with the population
standard deviation, as computed by np.abs(stats.zscore(...)). -/
noncomputable def zscore_abs (xs : List ℚ) (i : ℕ) : ℝ :=
  |((xs.getD i 0 : ℚ) : ℝ) - ((mean xs : ℚ) : ℝ)| / Real.sqrt ((popVar xs : ℚ) : ℝ)

/-- Indices flagged by the Z-score method (line 955-956):
np.where(np.abs(zscore) > 3). -/
noncomputable def out_z (xs : List ℚ) : List ℕ :=
  (List.range xs.length).filter (fun i => decide (3 < zscore_abs xs i))

/-- Model of np.percentile with the default linear interpolation on the
sorted data: position (n-1)q/100 is split into its floor index and
fractional part. -/
def percentile (xs : List ℚ) (q : ℚ) : ℚ :=
  let a := xs.mergeSort (fun x y => decide (x ≤ y))
  let pos := ((xs.length : ℚ) - 1) * q / 100
  let k := ⌊pos⌋₊
  let frac := pos - (k : ℚ)
  a.getD k 0 + frac * (a.getD (k + 1) (a.getD k 0) - a.getD k 0)

/-- Indices flagged by the IQR method (lines 957-959): values strictly
outside [Q1 - 1.5 IQR, Q3 + 1.5 IQR]. -/
def out_iqr (xs : List ℚ) : List ℕ :=
  let q1 := percentile xs 25
  let q3 := percentile xs 75
  let iqr := q3 - q1
  (List.range xs.length).filter (fun i =>
    decide (xs.getD i 0 < q1 - 3/2 * iqr) || decide (q3 + 3/2 * iqr < xs.getD i 0))

/-- The outlier stage of analyze_photometry (lines 953-961): both methods run
only when at least two samples are valid, otherwise both index sets are
empty. -/
noncomputable def outliers (samples : List Sample) : List ℕ × List ℕ :=
  if 2 ≤ (validFluxes samples).length then
    (out_z (validFluxes samples), out_iqr (validFluxes samples))
  else ([], [])

lemma popVar_nonneg (xs : List ℚ) : 0 ≤ popVar xs := by
  unfold popVar
  apply div_nonneg
  · apply List.sum_nonneg
    intro a ha
    obtain ⟨x, _, hx⟩ := List.mem_map.mp ha
    rw [← hx]
    exact sq_nonneg _
  · exact_mod_cast Nat.zero_le _

lemma popVar_eq_zero_imp (xs : List ℚ) (i : ℕ) (hi : i < xs.length)
    (hv : popVar xs = 0) : xs.getD i 0 = mean xs := by
  have hn : (0 : ℚ) < (xs.length : ℚ) := by
    exact_mod_cast Nat.lt_of_le_of_lt (Nat.zero_le i) hi
  have hsum : ((xs.map (fun x => (x - mean xs) ^ 2)).sum) = 0 := by
    unfold popVar at hv
    field_simp at hv
    exact hv
  have hmem : (xs.getD i 0 - mean xs) ^ 2 ∈ xs.map (fun x => (x - mean xs) ^ 2) := by
    apply List.mem_map_of_mem
    rw [List.getD_eq_getElem xs 0 hi]
    exact List.getElem_mem hi
  have hle : (xs.getD i 0 - mean xs) ^ 2 ≤ (xs.map (fun x => (x - mean xs) ^ 2)).sum :=
    List.single_le_sum
      (fun a ha => by
        obtain ⟨x, _, hx⟩ := List.mem_map.mp ha
        rw [← hx]
        exact sq_nonneg _) _ hmem
  rw [hsum] at hle
  have hz : (xs.getD i 0 - mean xs) ^ 2 = 0 := le_antisymm hle (sq_nonneg _)
  have := pow_eq_zero_iff (n := 2) (by omega) |>.mp hz
  linarith [this]

lemma out_z_mem (xs : List ℚ) (i : ℕ) :
    i ∈ out_z xs ↔ i < xs.length ∧ 9 * popVar xs < (xs.getD i 0 - mean xs) ^ 2 := by
  unfold out_z
  rw [List.mem_filter, List.mem_range, decide_eq_true_eq]
  constructor
  · rintro ⟨hi, hz⟩
    refine ⟨hi, ?_⟩
    unfold zscore_abs at hz
    by_cases hv : popVar xs = 0
    · rw [hv] at hz
      simp only [Rat.cast_zero, Real.sqrt_zero, div_zero] at hz
      norm_num at hz
    · have hv' : 0 < popVar xs := lt_of_le_of_ne (popVar_nonneg xs) (Ne.symm hv)
      have hv'' : (0 : ℝ) < ((popVar xs : ℚ) : ℝ) := by exact_mod_cast hv'
      have hsq : (0 : ℝ) < Real.sqrt ((popVar xs : ℚ) : ℝ) := Real.sqrt_pos.mpr hv''
      rw [lt_div_iff₀ hsq] at hz
      have h9 : (9 : ℝ) * ((popVar xs : ℚ) : ℝ) <
          (((xs.getD i 0 : ℚ) : ℝ) - ((mean xs : ℚ) : ℝ)) ^ 2 := by
        have habs : (3 * Real.sqrt ((popVar xs : ℚ) : ℝ)) ^ 2 <
            |((xs.getD i 0 : ℚ) : ℝ) - ((mean xs : ℚ) : ℝ)| ^ 2 := by
          apply pow_lt_pow_left₀ hz (by positivity)
          omega
        rw [mul_pow, Real.sq_sqrt hv''.le, sq_abs] at habs
        linarith
      have : (9 : ℚ) * popVar xs < (xs.getD i 0 - mean xs) ^ 2 := by
        exact_mod_cast h9
      linarith
  · rintro ⟨hi, hsq⟩
    refine ⟨hi, ?_⟩
    unfold zscore_abs
    have hvne : popVar xs ≠ 0 := by
      intro hv
      rw [popVar_eq_zero_imp xs i hi hv, hv] at hsq
      norm_num at hsq
    have hv' : 0 < popVar xs := lt_of_le_of_ne (popVar_nonneg xs) (Ne.symm hvne)
    have hv'' : (0 : ℝ) < ((popVar xs : ℚ) : ℝ) := by exact_mod_cast hv'
    have hsqp : (0 : ℝ) < Real.sqrt ((popVar xs : ℚ) : ℝ) := Real.sqrt_pos.mpr hv''
    rw [lt_div_iff₀ hsqp]
    have h9 : (9 : ℝ) * ((popVar xs : ℚ) : ℝ) <
        (((xs.getD i 0 : ℚ) : ℝ) - ((mean xs : ℚ) : ℝ)) ^ 2 := by exact_mod_cast hsq
    have hboth : (3 * Real.sqrt ((popVar xs : ℚ) : ℝ)) ^ 2 <
        |((xs.getD i 0 : ℚ) : ℝ) - ((mean xs : ℚ) : ℝ)| ^ 2 := by
      rw [mul_pow, Real.sq_sqrt hv''.le, sq_abs]
      linarith
    exact lt_of_pow_lt_pow_left₀ 2 (abs_nonneg _) hboth

lemma out_iqr_mem (xs : List ℚ) (i : ℕ) :
    i ∈ out_iqr xs ↔ i < xs.length ∧
      (xs.getD i 0 < percentile xs 25 - 3/2 * (percentile xs 75 - percentile xs 25) ∨
       percentile xs 75 + 3/2 * (percentile xs 75 - percentile xs 25) < xs.getD i 0) := by
  unfold out_iqr
  rw [List.mem_filter, List.mem_range]
  simp only [Bool.or_eq_true, decide_eq_true_eq]

/-- C8: outlier detection runs iff at least two samples are valid; the
Z-score method flags exactly the valid indices whose flux deviates from the
mean by more than three population standard deviations (stated by squares),
the IQR method flags exactly the valid values strictly outside
[Q1 - 1.5 IQR, Q3 + 1.5 IQR], both index sets stay inside the valid subset's
index range, and with fewer than two valid samples both sets are empty. -/
theorem outliers_spec (samples : List Sample) :
    ((validFluxes samples).length < 2 → outliers samples = ([], [])) ∧
    (2 ≤ (validFluxes samples).length →
      outliers samples = (out_z (validFluxes samples), out_iqr (validFluxes samples))) ∧
    (∀ i, i ∈ out_z (validFluxes samples) ↔
      i < (validFluxes samples).length ∧
        9 * popVar (validFluxes samples) <
          ((validFluxes samples).getD i 0 - mean (validFluxes samples)) ^ 2) ∧
    (∀ i, i ∈ out_iqr (validFluxes samples) ↔
      i < (validFluxes samples).length ∧
        ((validFluxes samples).getD i 0 <
            percentile (validFluxes samples) 25 -
              3/2 * (percentile (validFluxes samples) 75 - percentile (validFluxes samples) 25) ∨
         percentile (validFluxes samples) 75 +
            3/2 * (percentile (validFluxes samples) 75 - percentile (validFluxes samples) 25) <
          (validFluxes samples).getD i 0)) ∧
    (∀ i, i ∈ (outliers samples).1 → i < (validFluxes samples).length) ∧
    (∀ i, i ∈ (outliers samples).2 → i < (validFluxes samples).length) := by
  refine ⟨?_, ?_, out_z_mem _, out_iqr_mem _, ?_, ?_⟩
  · intro h
    unfold outliers
    rw [if_neg (by omega)]
  · intro h
    unfold outliers
    rw [if_pos h]
  · intro i hi
    unfold outliers at hi
    split_ifs at hi with h
    · exact ((out_z_mem _ i).mp hi).1
    · simp only at hi
      simp at hi
  · intro i hi
    unfold outliers at hi
    split_ifs at hi with h
    · exact ((out_iqr_mem _ i).mp hi).1
    · simp only at hi
      simp at hi

/-- Witness for C8 on three valid samples. -/
theorem outliers_spec_witness :
    outliers [⟨0, 0, 1, false, 0, 0, some 0, none, none, none⟩,
        ⟨0, 0, 1, false, 0, 0, some 0, none, none, none⟩,
        ⟨0, 0, 10, false, 0, 0, some 0, none, none, none⟩] =
      (out_z (validFluxes [⟨0, 0, 1, false, 0, 0, some 0, none, none, none⟩,
          ⟨0, 0, 1, false, 0, 0, some 0, none, none, none⟩,
          ⟨0, 0, 10, false, 0, 0, some 0, none, none, none⟩]),
       out_iqr (validFluxes [⟨0, 0, 1, false, 0, 0, some 0, none, none, none⟩,
          ⟨0, 0, 1, false, 0, 0, some 0, none, none, none⟩,
          ⟨0, 0, 10, false, 0, 0, some 0, none, none, none⟩])) :=
  (outliers_spec [⟨0, 0, 1, false, 0, 0, some 0, none, none, none⟩,
      ⟨0, 0, 1, false, 0, 0, some 0, none, none, none⟩,
      ⟨0, 0, 10, false, 0, 0, some 0, none, none, none⟩]).2.1 (by decide)

/-! ### Streak endpoint resolver (detect_streak_endpoints, lines 1841-1999) -/

/-- One candidate segment from the external detector (StreakCoordinates):
start and end coordinates, the pixel coordinates along the segment and the
reported length.  Fragments are identified by their position in the
detector's list, matching Python object identity. -/
structure StreakFragment where
  x_start : ℚ
  y_start : ℚ
  x_end : ℚ
  y_end : ℚ
  x_coords : List ℚ
  y_coords : List ℚ
  length : ℚ
deriving Inhabited, DecidableEq

/-- Minimum fragment length of line 1871. -/
def min_length : ℚ := 3

/-- Maximum stitch distance of line 1872. -/
def max_stitch_distance : ℚ := 300

/-- Angle tolerance in degrees of line 1873. -/
def angle_tolerance : ℚ := 2

/-- Length filter of line 1876: keep fragments with length >= min_length. -/
def valid_streaks (streaks : List StreakFragment) : List StreakFragment :=
  streaks.filter (fun s => decide (min_length ≤ s.length))

/-- Model of np.arctan2(y, x) in radians. -/
noncomputable def arctan2 (y x : ℝ) : ℝ :=
  if 0 < x then Real.arctan (y / x)
  else if x < 0 then
    (if 0 ≤ y then Real.arctan (y / x) + Real.pi else Real.arctan (y / x) - Real.pi)
  else
    (if 0 < y then Real.pi / 2 else if y < 0 then -(Real.pi / 2) else 0)

/-- get_angle of lines 1882-1887: the fragment's direction angle in degrees,
normalized to [0, 180) by adding 180 to negative values. -/
noncomputable def get_angle (s : StreakFragment) : ℝ :=
  let a := arctan2 ((s.y_end : ℝ) - (s.y_start : ℝ)) ((s.x_end : ℝ) - (s.x_start : ℝ))
    * 180 / Real.pi
  if a < 0 then a + 180 else a

/-- Wrap-around angular difference of line 1914: min(|d|, 180 - |d|). -/
noncomputable def angle_diff (a1 a2 : ℝ) : ℝ :=
  min |a1 - a2| (180 - |a1 - a2|)

/-- Squared Euclidean distance between two points. -/
def sq_dist (p q : ℚ × ℚ) : ℚ :=
  (p.1 - q.1) ^ 2 + (p.2 - q.2) ^ 2

/-- Euclidean distance between two pixel coordinates. -/
noncomputable def dist_pt (p q : ℚ × ℚ) : ℝ :=
  Real.sqrt ((sq_dist p q : ℚ) : ℝ)

/-- Minimum endpoint-to-endpoint distance between two fragments
(lines 1930-1936). -/
noncomputable def min_endpoint_dist (a b : StreakFragment) : ℝ :=
  min
    (min (dist_pt (a.x_start, a.y_start) (b.x_start, b.y_start))
         (dist_pt (a.x_start, a.y_start) (b.x_end, b.y_end)))
    (min (dist_pt (a.x_end, a.y_end) (b.x_start, b.y_start))
         (dist_pt (a.x_end, a.y_end) (b.x_end, b.y_end)))

/-- Angle-compatible candidates for the seed i (lines 1909-1919): every other
index that is not yet grouped and whose angle differs from the seed's by at
most the tolerance. -/
noncomputable def angle_candidates (vs : List StreakFragment) (used : List ℕ) (i : ℕ) :
    List ℕ :=
  (List.range vs.length).filter (fun j =>
    decide (j ≠ i ∧ j ∉ used ∧
      angle_diff (get_angle (vs.getD i default)) (get_angle (vs.getD j default)) ≤
        ((angle_tolerance : ℚ) : ℝ)))

/-- Spatial stitching pass of lines 1922-1944: each candidate in order is
accepted when its minimum endpoint distance to some member already accepted
into the growing group is at most max_stitch_distance. -/
noncomputable def stitch_filter (vs : List StreakFragment) :
    List ℕ → List ℕ → List ℕ
  | acc, [] => acc
  | acc, k :: rest =>
    if ∃ m ∈ acc, min_endpoint_dist (vs.getD m default) (vs.getD k default) ≤
        ((max_stitch_distance : ℚ) : ℝ) then
      stitch_filter vs (acc ++ [k]) rest
    else
      stitch_filter vs acc rest

/-- The group seeded by the ungrouped fragment i: the seed plus the stitched
angle-compatible candidates. -/
noncomputable def group_of (vs : List StreakFragment) (used : List ℕ) (i : ℕ) : List ℕ :=
  stitch_filter vs [i] (angle_candidates vs used i)

/-- Outer grouping loop of lines 1896-1948: each not-yet-used index seeds a
group; the group's members are marked used. -/
noncomputable def group_loop (vs : List StreakFragment) :
    List ℕ → List (List ℕ) → List ℕ → List (List ℕ) × List ℕ
  | [], groups, used => (groups, used)
  | i :: rest, groups, used =>
    if i ∈ used then group_loop vs rest groups used
    else group_loop vs rest (groups ++ [group_of vs used i]) (used ++ group_of vs used i)

/-- The groups produced for the valid fragments. -/
noncomputable def streak_groups (vs : List StreakFragment) : List (List ℕ) :=
  (group_loop vs (List.range vs.length) [] []).1

/-- All pixel coordinates contained in a group (lines 1960-1962). -/
def all_coords (vs : List StreakFragment) (g : List ℕ) : List (ℚ × ℚ) :=
  (g.map (fun m => (vs.getD m default).x_coords.zip (vs.getD m default).y_coords)).flatten

/-- All ordered index pairs (i, j) with i < j, in the iteration order of the
double loop with the i >= j skip (lines 1967-1970 and 1985-1988). -/
def pairs {α : Type} : List α → List (α × α)
  | [] => []
  | x :: xs => (xs.map (fun y => (x, y))) ++ pairs xs

/-- Maximum pairwise distance scan of lines 1966-1973 (strict-improvement
scan starting from 0). -/
noncomputable def max_pair_dist (coords : List (ℚ × ℚ)) : ℝ :=
  (pairs coords).foldl (fun m p => if m < dist_pt p.1 p.2 then dist_pt p.1 p.2 else m) 0

/-- Group-selection fold of lines 1958-1977: keep the first group (with at
least two coordinates) whose score strictly exceeds the best so far. -/
noncomputable def select_group (vs : List StreakFragment)
    (groups : List (List ℕ)) : ℝ × Option (List (ℚ × ℚ)) :=
  groups.foldl (fun st g =>
    if 2 ≤ (all_coords vs g).length then
      (if st.1 < max_pair_dist (all_coords vs g) then
        (max_pair_dist (all_coords vs g), some (all_coords vs g))
      else st)
    else st) (0, none)

/-- Farthest-pair scan of lines 1982-1992 over the winning group's
coordinates. -/
noncomputable def best_pair (coords : List (ℚ × ℚ)) :
    ℝ × Option ((ℚ × ℚ) × (ℚ × ℚ)) :=
  (pairs coords).foldl (fun st p =>
    if st.1 < dist_pt p.1 p.2 then (dist_pt p.1 p.2, some p) else st) (0, none)

/-- Python max(valid_streaks, key=length): the first fragment of maximal
length (line 1998). -/
def longest : List StreakFragment → StreakFragment
  | [] => default
  | s :: rest => rest.foldl (fun b t => if b.length < t.length then t else b) s

/-- Model of detect_streak_endpoints (lines 1841-1999).  The bare
`return` statements of lines 1868 and 1880 (no streaks, or none surviving
the length filter) yield none. -/
noncomputable def detect_streak_endpoints (streaks : List StreakFragment) :
    Option ((ℚ × ℚ) × (ℚ × ℚ)) :=
  if streaks = [] then none
  else
    let vs := valid_streaks streaks
    if vs = [] then none
    else if vs.length = 1 then
      some (((vs.headD default).x_start, (vs.headD default).y_start),
            ((vs.headD default).x_end, (vs.headD default).y_end))
    else
      let groups0 := streak_groups vs
      let groups := if groups0 = [] then (List.range vs.length).map (fun i => [i])
        else groups0
      match (select_group vs groups).2 with
      | some coords =>
        match (best_pair coords).2 with
        | some p => some p
        | none =>
          some (((longest vs).x_start, (longest vs).y_start),
                ((longest vs).x_end, (longest vs).y_end))
      | none =>
        some (((longest vs).x_start, (longest vs).y_start),
              ((longest vs).x_end, (longest vs).y_end))

/-- Model of find_streak (lines 2001-2004): the caller unpacks the returned
pair unconditionally, so a None result from detect_streak_endpoints raises a
TypeError, modelled as an error value. -/
noncomputable def find_streak (streaks : List StreakFragment) :
    Except String ((ℚ × ℚ) × (ℚ × ℚ)) :=
  match detect_streak_endpoints streaks with
  | some p => Except.ok p
  | none => Except.error "TypeError: cannot unpack non-iterable NoneType object"

/-! ### C7: the no-streak condition crashes find_streak -/

/-- C7 (code bug): when the detector returns no fragments, or no fragment
survives the min_length filter, detect_streak_endpoints itself returns None
after showing a warning, but find_streak unpacks that None unconditionally
and raises a TypeError, so streak identification does crash on such an
image. -/
theorem find_streak_crash :
    detect_streak_endpoints [] = none ∧
    find_streak [] =
      Except.error "TypeError: cannot unpack non-iterable NoneType object" ∧
    detect_streak_endpoints [⟨0, 0, 1, 0, [0, 1], [0, 0], 2⟩] = none ∧
    find_streak [⟨0, 0, 1, 0, [0, 1], [0, 0], 2⟩] =
      Except.error "TypeError: cannot unpack non-iterable NoneType object" := by
  have h1 : detect_streak_endpoints [] = none := by
    unfold detect_streak_endpoints
    rfl
  have h2 : detect_streak_endpoints [⟨0, 0, 1, 0, [0, 1], [0, 0], 2⟩] = none := by
    unfold detect_streak_endpoints
    have hv : valid_streaks [(⟨0, 0, 1, 0, [0, 1], [0, 0], 2⟩ : StreakFragment)] = [] := by
      unfold valid_streaks min_length
      norm_num [List.filter]
    rw [hv]
    rfl
  refine ⟨h1, ?_, h2, ?_⟩
  · unfold find_streak
    rw [h1]
  · unfold find_streak
    rw [h2]

/-! ### C2: greedy angle-then-distance grouping -/

lemma stitch_filter_nil (vs : List StreakFragment) (acc : List ℕ) :
    stitch_filter vs acc [] = acc := rfl

lemma stitch_filter_cons (vs : List StreakFragment) (acc : List ℕ) (k : ℕ) (rest : List ℕ) :
    stitch_filter vs acc (k :: rest) =
      if ∃ m ∈ acc, min_endpoint_dist (vs.getD m default) (vs.getD k default) ≤
          ((max_stitch_distance : ℚ) : ℝ) then
        stitch_filter vs (acc ++ [k]) rest
      else
        stitch_filter vs acc rest := rfl

lemma stitch_filter_prefix (vs : List StreakFragment) :
    ∀ (l acc : List ℕ), ∃ t, stitch_filter vs acc l = acc ++ t := by
  intro l
  induction l with
  | nil => exact fun acc => ⟨[], by rw [stitch_filter_nil, List.append_nil]⟩
  | cons k rest ih =>
    intro acc
    rw [stitch_filter_cons]
    split_ifs with hacc
    · obtain ⟨t, ht⟩ := ih (acc ++ [k])
      exact ⟨k :: t, by rw [ht, List.append_assoc]; rfl⟩
    · exact ih acc

lemma stitch_filter_mem (vs : List StreakFragment) (f : ℕ) :
    ∀ (l acc : List ℕ),
      f ∈ stitch_filter vs acc l ↔
        f ∈ acc ∨ ∃ pre post, l = pre ++ f :: post ∧
          ∃ m ∈ stitch_filter vs acc pre,
            min_endpoint_dist (vs.getD m default) (vs.getD f default) ≤
              ((max_stitch_distance : ℚ) : ℝ) := by
  intro l
  induction l with
  | nil =>
    intro acc
    rw [stitch_filter_nil]
    simp
  | cons k rest ih =>
    intro acc
    rw [stitch_filter_cons]
    split_ifs with hacc
    · rw [ih (acc ++ [k])]
      constructor
      · rintro (hin | ⟨pre, post, hl, m, hm, hd⟩)
        · rcases List.mem_append.mp hin with h | h
          · exact Or.inl h
          · have hf : f = k := by simpa using h
            subst hf
            exact Or.inr ⟨[], rest, rfl, hacc⟩
        · refine Or.inr ⟨k :: pre, post, by rw [hl]; rfl, m, ?_, hd⟩
          rw [stitch_filter_cons, if_pos hacc]
          exact hm
      · rintro (hin | ⟨pre, post, hl, m, hm, hd⟩)
        · exact Or.inl (List.mem_append.mpr (Or.inl hin))
        · cases pre with
          | nil =>
            simp only [List.nil_append, List.cons.injEq] at hl
            refine Or.inl (List.mem_append.mpr (Or.inr ?_))
            simp [hl.1]
          | cons k2 pre2 =>
            simp only [List.cons_append, List.cons.injEq] at hl
            obtain ⟨hk2, hrest⟩ := hl
            subst hk2
            refine Or.inr ⟨pre2, post, hrest, m, ?_, hd⟩
            rw [stitch_filter_cons, if_pos hacc] at hm
            exact hm
    · rw [ih acc]
      constructor
      · rintro (hin | ⟨pre, post, hl, m, hm, hd⟩)
        · exact Or.inl hin
        · refine Or.inr ⟨k :: pre, post, by rw [hl]; rfl, m, ?_, hd⟩
          rw [stitch_filter_cons, if_neg hacc]
          exact hm
      · rintro (hin | ⟨pre, post, hl, m, hm, hd⟩)
        · exact Or.inl hin
        · cases pre with
          | nil =>
            simp only [List.nil_append, List.cons.injEq] at hl
            rw [stitch_filter_nil] at hm
            exact absurd ⟨m, hm, by rw [hl.1]; exact hd⟩ hacc
          | cons k2 pre2 =>
            simp only [List.cons_append, List.cons.injEq] at hl
            obtain ⟨hk2, hrest⟩ := hl
            subst hk2
            refine Or.inr ⟨pre2, post, hrest, m, ?_, hd⟩
            rw [stitch_filter_cons, if_neg hacc] at hm
            exact hm

lemma angle_candidates_mem (vs : List StreakFragment) (used : List ℕ) (i j : ℕ) :
    j ∈ angle_candidates vs used i ↔
      j < vs.length ∧ j ≠ i ∧ j ∉ used ∧
        angle_diff (get_angle (vs.getD i default)) (get_angle (vs.getD j default)) ≤
          ((angle_tolerance : ℚ) : ℝ) := by
  unfold angle_candidates
  rw [List.mem_filter, List.mem_range, decide_eq_true_eq]

lemma group_of_head (vs : List StreakFragment) (used : List ℕ) (i : ℕ) :
    ∃ t, group_of vs used i = i :: t := by
  obtain ⟨t, ht⟩ := stitch_filter_prefix vs (angle_candidates vs used i) [i]
  exact ⟨t, by rw [group_of, ht]; rfl⟩

lemma group_of_mem (vs : List StreakFragment) (used : List ℕ) (i f : ℕ) :
    f ∈ group_of vs used i ↔
      f = i ∨ (f < vs.length ∧ f ≠ i ∧ f ∉ used ∧
        angle_diff (get_angle (vs.getD i default)) (get_angle (vs.getD f default)) ≤
          ((angle_tolerance : ℚ) : ℝ) ∧
        ∃ pre post, angle_candidates vs used i = pre ++ f :: post ∧
          ∃ m ∈ stitch_filter vs [i] pre,
            min_endpoint_dist (vs.getD m default) (vs.getD f default) ≤
              ((max_stitch_distance : ℚ) : ℝ)) := by
  unfold group_of
  rw [stitch_filter_mem]
  simp only [List.mem_singleton]
  constructor
  · rintro (h | ⟨pre, post, hl, hm⟩)
    · exact Or.inl h
    · right
      have hf : f ∈ angle_candidates vs used i := by rw [hl]; simp
      have hc := (angle_candidates_mem vs used i f).mp hf
      exact ⟨hc.1, hc.2.1, hc.2.2.1, hc.2.2.2, pre, post, hl, hm⟩
  · rintro (h | ⟨_, _, _, _, pre, post, hl, hm⟩)
    · exact Or.inl h
    · exact Or.inr ⟨pre, post, hl, hm⟩

lemma group_loop_nil (vs : List StreakFragment) (groups : List (List ℕ)) (used : List ℕ) :
    group_loop vs [] groups used = (groups, used) := rfl

lemma group_loop_cons (vs : List StreakFragment) (i : ℕ) (rest : List ℕ)
    (groups : List (List ℕ)) (used : List ℕ) :
    group_loop vs (i :: rest) groups used =
      if i ∈ used then group_loop vs rest groups used
      else group_loop vs rest (groups ++ [group_of vs used i])
        (used ++ group_of vs used i) := rfl

lemma group_loop_sound (vs : List StreakFragment) :
    ∀ (is : List ℕ) (groups : List (List ℕ)) (used : List ℕ),
      used = groups.flatten →
      ∃ tail, (group_loop vs is groups used).1 = groups ++ tail ∧
        ∀ k, k < tail.length → ∃ i,
          i ∉ (groups ++ tail.take k).flatten ∧
          tail.getD k [] = group_of vs ((groups ++ tail.take k).flatten) i := by
  intro is
  induction is with
  | nil =>
    intro groups used hused
    exact ⟨[], by rw [group_loop_nil, List.append_nil], fun k hk => by simp at hk⟩
  | cons i rest ih =>
    intro groups used hused
    rw [group_loop_cons]
    split_ifs with hi
    · exact ih groups used hused
    · have hinv : used ++ group_of vs used i = (groups ++ [group_of vs used i]).flatten := by
        rw [List.flatten_append, hused]
        simp
      obtain ⟨tail2, ht2, hp2⟩ := ih (groups ++ [group_of vs used i]) _ hinv
      refine ⟨group_of vs used i :: tail2, ?_, ?_⟩
      · rw [ht2, List.append_assoc]
        rfl
      · intro k hk
        cases k with
        | zero =>
          refine ⟨i, ?_, ?_⟩
          · rw [List.take_zero, List.append_nil, ← hused]
            exact hi
          · rw [List.take_zero, List.append_nil, ← hused]
            rfl
        | succ k =>
          have hk2 : k < tail2.length := by simpa using hk
          obtain ⟨j, hj1, hj2⟩ := hp2 k hk2
          refine ⟨j, ?_, ?_⟩
          · rw [List.take_succ_cons, List.append_cons]
            exact hj1
          · rw [List.getD_cons_succ, List.take_succ_cons, List.append_cons]
            exact hj2

/-- C2: for at least two surviving fragments, every group produced by the
grouping pass is seeded by a fragment index not in any earlier group, and a
fragment belongs to that group iff it is the seed, or it is an ungrouped
fragment other than the seed whose direction angle differs from the seed's
by at most angle_tolerance under the wrap-around distance and whose minimum
endpoint-to-endpoint distance to some fragment already accepted into the
growing group is at most max_stitch_distance; moreover the groups are
pairwise disjoint, so every fragment belongs to at most one group. -/
theorem fragment_grouping_spec (streaks : List StreakFragment)
    (_h2 : 2 ≤ (valid_streaks streaks).length) :
    (∀ k, k < (streak_groups (valid_streaks streaks)).length → ∃ i,
      i ∉ ((streak_groups (valid_streaks streaks)).take k).flatten ∧
      ((streak_groups (valid_streaks streaks)).getD k []).head? = some i ∧
      (∀ f, f ∈ (streak_groups (valid_streaks streaks)).getD k [] ↔
        f = i ∨
        (f < (valid_streaks streaks).length ∧ f ≠ i ∧
         f ∉ ((streak_groups (valid_streaks streaks)).take k).flatten ∧
         angle_diff (get_angle ((valid_streaks streaks).getD i default))
             (get_angle ((valid_streaks streaks).getD f default)) ≤
           ((angle_tolerance : ℚ) : ℝ) ∧
         ∃ pre post,
           angle_candidates (valid_streaks streaks)
               (((streak_groups (valid_streaks streaks)).take k).flatten) i =
             pre ++ f :: post ∧
           ∃ m ∈ stitch_filter (valid_streaks streaks) [i] pre,
             min_endpoint_dist ((valid_streaks streaks).getD m default)
                 ((valid_streaks streaks).getD f default) ≤
               ((max_stitch_distance : ℚ) : ℝ)))) ∧
    List.Pairwise (fun g1 g2 => ∀ f ∈ g1, f ∉ g2)
      (streak_groups (valid_streaks streaks)) := by
  obtain ⟨tail, htail, hp⟩ :=
    group_loop_sound (valid_streaks streaks)
      (List.range (valid_streaks streaks).length) [] [] rfl
  have hsg : streak_groups (valid_streaks streaks) = tail := by
    rw [streak_groups, htail, List.nil_append]
  have hmain : ∀ k, k < (streak_groups (valid_streaks streaks)).length → ∃ i,
      i ∉ ((streak_groups (valid_streaks streaks)).take k).flatten ∧
      (streak_groups (valid_streaks streaks)).getD k [] =
        group_of (valid_streaks streaks)
          (((streak_groups (valid_streaks streaks)).take k).flatten) i := by
    intro k hk
    rw [hsg] at hk ⊢
    obtain ⟨i, hi1, hi2⟩ := hp k hk
    rw [List.nil_append] at hi1 hi2
    exact ⟨i, hi1, hi2⟩
  constructor
  · intro k hk
    obtain ⟨i, hi1, hi2⟩ := hmain k hk
    refine ⟨i, hi1, ?_, ?_⟩
    · obtain ⟨t, ht⟩ := group_of_head (valid_streaks streaks)
        (((streak_groups (valid_streaks streaks)).take k).flatten) i
      rw [hi2, ht]
      rfl
    · intro f
      rw [hi2]
      exact group_of_mem _ _ i f
  · rw [List.pairwise_iff_getElem]
    intro k1 k2 hk1 hk2 hlt f hf1 hf2
    have hk1d : (streak_groups (valid_streaks streaks))[k1] =
        (streak_groups (valid_streaks streaks)).getD k1 [] :=
      (List.getD_eq_getElem _ [] hk1).symm
    have hk2d : (streak_groups (valid_streaks streaks))[k2] =
        (streak_groups (valid_streaks streaks)).getD k2 [] :=
      (List.getD_eq_getElem _ [] hk2).symm
    obtain ⟨i2, hi2a, hi2b⟩ := hmain k2 hk2
    rw [hk2d, hi2b] at hf2
    have hnotused : f ∉ ((streak_groups (valid_streaks streaks)).take k2).flatten := by
      rcases (group_of_mem _ _ i2 f).mp hf2 with h | h
      · rw [h]
        exact hi2a
      · exact h.2.2.1
    apply hnotused
    rw [List.mem_flatten]
    refine ⟨(streak_groups (valid_streaks streaks))[k1], ?_, by rw [hk1d] at hf1 ⊢; exact hf1⟩
    rw [List.mem_take_iff_getElem]
    exact ⟨k1, by omega, rfl⟩

/-- Witness for C2: disjointness of the groups for two concrete surviving
fragments. -/
theorem fragment_grouping_spec_witness :
    List.Pairwise (fun g1 g2 => ∀ f ∈ g1, f ∉ g2)
      (streak_groups (valid_streaks
        [⟨0, 0, 10, 0, [0, 5, 10], [0, 0, 0], 10⟩,
         ⟨110, 0, 120, 0, [110, 115, 120], [0, 0, 0], 10⟩])) :=
  (fragment_grouping_spec
    [⟨0, 0, 10, 0, [0, 5, 10], [0, 0, 0], 10⟩,
     ⟨110, 0, 120, 0, [110, 115, 120], [0, 0, 0], 10⟩] (by decide)).2

/-! ### C3: group scoring and endpoint selection -/

lemma pairs_mem_sub {α : Type} (l : List α) (p q : α) (h : (p, q) ∈ pairs l) :
    p ∈ l ∧ q ∈ l := by
  induction l with
  | nil => simp [pairs] at h
  | cons x xs ih =>
    rw [pairs, List.mem_append] at h
    rcases h with h | h
    · obtain ⟨y, hy, hpq⟩ := List.mem_map.mp h
      obtain ⟨hp, hq⟩ := Prod.mk.injEq .. ▸ hpq
      exact ⟨by rw [← hp]; exact List.mem_cons_self x xs,
        by rw [← hq]; exact List.mem_cons_of_mem x hy⟩
    · obtain ⟨hp, hq⟩ := ih h
      exact ⟨List.mem_cons_of_mem x hp, List.mem_cons_of_mem x hq⟩

lemma pairs_complete {α : Type} (l : List α) (p q : α) (hp : p ∈ l) (hq : q ∈ l) :
    p = q ∨ (p, q) ∈ pairs l ∨ (q, p) ∈ pairs l := by
  induction l with
  | nil => simp at hp
  | cons x xs ih =>
    rw [List.mem_cons] at hp hq
    rcases hp with hp | hp <;> rcases hq with hq | hq
    · exact Or.inl (hp.trans hq.symm)
    · refine Or.inr (Or.inl ?_)
      rw [pairs, List.mem_append]
      exact Or.inl (List.mem_map.mpr ⟨q, hq, by rw [hp]⟩)
    · refine Or.inr (Or.inr ?_)
      rw [pairs, List.mem_append]
      exact Or.inl (List.mem_map.mpr ⟨p, hp, by rw [hq]⟩)
    · rcases ih hp hq with h | h | h
      · exact Or.inl h
      · exact Or.inr (Or.inl (by rw [pairs, List.mem_append]; exact Or.inr h))
      · exact Or.inr (Or.inr (by rw [pairs, List.mem_append]; exact Or.inr h))

lemma dist_pt_nonneg (p q : ℚ × ℚ) : 0 ≤ dist_pt p q := Real.sqrt_nonneg _

lemma dist_pt_comm (p q : ℚ × ℚ) : dist_pt p q = dist_pt q p := by
  unfold dist_pt
  have h : sq_dist p q = sq_dist q p := by
    unfold sq_dist
    ring
  rw [h]

lemma dist_pt_self (p : ℚ × ℚ) : dist_pt p p = 0 := by
  unfold dist_pt
  have h : sq_dist p p = 0 := by
    unfold sq_dist
    ring
  rw [h]
  simp

lemma max_fold_pairs_le_self (l : List ((ℚ × ℚ) × (ℚ × ℚ))) :
    ∀ b, b ≤ l.foldl (fun m r => max m (dist_pt r.1 r.2)) b := by
  induction l with
  | nil => exact fun b => le_refl b
  | cons x xs ih => exact fun b => le_trans (le_max_left b _) (ih _)

lemma max_fold_pairs_le (l : List ((ℚ × ℚ) × (ℚ × ℚ))) (p q : ℚ × ℚ) (h : (p, q) ∈ l) :
    ∀ b, dist_pt p q ≤ l.foldl (fun m r => max m (dist_pt r.1 r.2)) b := by
  induction l with
  | nil => simp at h
  | cons y ys ih =>
    intro b
    rw [List.foldl_cons]
    rcases List.mem_cons.mp h with h1 | h1
    · refine le_trans ?_ (max_fold_pairs_le_self ys _)
      rw [← h1]
      exact le_max_right b _
    · exact ih h1 _

lemma max_pair_dist_eq_foldl (coords : List (ℚ × ℚ)) :
    max_pair_dist coords =
      (pairs coords).foldl (fun m p => max m (dist_pt p.1 p.2)) 0 := by
  unfold max_pair_dist
  apply List.foldl_ext
  intro m p _
  rcases lt_or_le m (dist_pt p.1 p.2) with h | h
  · rw [if_pos h, max_eq_right h.le]
  · rw [if_neg (not_lt.mpr h), max_eq_left h]

lemma max_pair_dist_nonneg (coords : List (ℚ × ℚ)) : 0 ≤ max_pair_dist coords := by
  rw [max_pair_dist_eq_foldl]
  exact max_fold_pairs_le_self _ 0

lemma max_pair_dist_ge (coords : List (ℚ × ℚ)) (p q : ℚ × ℚ)
    (hp : p ∈ coords) (hq : q ∈ coords) : dist_pt p q ≤ max_pair_dist coords := by
  rcases pairs_complete coords p q hp hq with h | h | h
  · rw [h, dist_pt_self]
    exact max_pair_dist_nonneg coords
  · rw [max_pair_dist_eq_foldl]
    exact max_fold_pairs_le (pairs coords) p q h 0
  · rw [max_pair_dist_eq_foldl, dist_pt_comm]
    exact max_fold_pairs_le (pairs coords) q p h 0

lemma best_pair_fold_sound (l : List ((ℚ × ℚ) × (ℚ × ℚ))) :
    ∀ st : ℝ × Option ((ℚ × ℚ) × (ℚ × ℚ)),
      st.1 ≤ (l.foldl (fun s x =>
        if s.1 < dist_pt x.1 x.2 then (dist_pt x.1 x.2, some x) else s) st).1 ∧
      (∀ x ∈ l, dist_pt x.1 x.2 ≤ (l.foldl (fun s x =>
        if s.1 < dist_pt x.1 x.2 then (dist_pt x.1 x.2, some x) else s) st).1) ∧
      ((l.foldl (fun s x =>
        if s.1 < dist_pt x.1 x.2 then (dist_pt x.1 x.2, some x) else s) st) = st ∨
        ∃ x ∈ l,
          (l.foldl (fun s x =>
            if s.1 < dist_pt x.1 x.2 then (dist_pt x.1 x.2, some x) else s) st).2 = some x ∧
          (l.foldl (fun s x =>
            if s.1 < dist_pt x.1 x.2 then (dist_pt x.1 x.2, some x) else s) st).1 =
            dist_pt x.1 x.2) := by
  induction l with
  | nil => exact fun st => ⟨le_refl _, fun x hx => absurd hx (List.not_mem_nil x), Or.inl rfl⟩
  | cons y ys ih =>
    intro st
    rw [List.foldl_cons]
    by_cases hy : st.1 < dist_pt y.1 y.2
    · rw [if_pos hy]
      obtain ⟨ih1, ih2, ih3⟩ := ih (dist_pt y.1 y.2, some y)
      refine ⟨le_trans hy.le ih1, ?_, ?_⟩
      · intro x hx
        rcases List.mem_cons.mp hx with h | h
        · rw [h]
          exact ih1
        · exact ih2 x h
      · rcases ih3 with h | ⟨x, hx, h1, h2⟩
        · exact Or.inr ⟨y, List.mem_cons_self y ys, by rw [h], by rw [h]⟩
        · exact Or.inr ⟨x, List.mem_cons_of_mem y hx, h1, h2⟩
    · rw [if_neg hy]
      push_neg at hy
      obtain ⟨ih1, ih2, ih3⟩ := ih st
      refine ⟨ih1, ?_, ?_⟩
      · intro x hx
        rcases List.mem_cons.mp hx with h | h
        · rw [h]
          exact le_trans hy ih1
        · exact ih2 x h
      · rcases ih3 with h | ⟨x, hx, h1, h2⟩
        · exact Or.inl h
        · exact Or.inr ⟨x, List.mem_cons_of_mem y hx, h1, h2⟩

lemma best_pair_fold_fst (l : List ((ℚ × ℚ) × (ℚ × ℚ))) :
    ∀ st : ℝ × Option ((ℚ × ℚ) × (ℚ × ℚ)),
      (l.foldl (fun s x =>
        if s.1 < dist_pt x.1 x.2 then (dist_pt x.1 x.2, some x) else s) st).1 =
        l.foldl (fun m x => max m (dist_pt x.1 x.2)) st.1 := by
  induction l with
  | nil => exact fun st => rfl
  | cons y ys ih =>
    intro st
    rw [List.foldl_cons, List.foldl_cons]
    by_cases hy : st.1 < dist_pt y.1 y.2
    · rw [if_pos hy, max_eq_right hy.le]
      exact ih (dist_pt y.1 y.2, some y)
    · rw [if_neg hy, max_eq_left (not_lt.mp hy)]
      exact ih st

lemma best_pair_sound (coords : List (ℚ × ℚ)) (p : (ℚ × ℚ) × (ℚ × ℚ))
    (h : (best_pair coords).2 = some p) :
    p.1 ∈ coords ∧ p.2 ∈ coords ∧
    dist_pt p.1 p.2 = max_pair_dist coords ∧
    (∀ q1 ∈ coords, ∀ q2 ∈ coords, dist_pt q1 q2 ≤ dist_pt p.1 p.2) := by
  obtain ⟨_, h2, h3⟩ := best_pair_fold_sound (pairs coords) (0, none)
  rcases h3 with heq | ⟨x, hx, hx1, hx2⟩
  · unfold best_pair at h
    rw [heq] at h
    exact Option.noConfusion h
  · unfold best_pair at h
    rw [hx1] at h
    obtain hpx : x = p := Option.some_inj.mp h
    subst hpx
    obtain ⟨hm1, hm2⟩ := pairs_mem_sub coords x.1 x.2 (by
      cases x
      exact hx)
    have hfst : (best_pair coords).1 = max_pair_dist coords := by
      unfold best_pair
      rw [best_pair_fold_fst, max_pair_dist_eq_foldl]
    have hdx : dist_pt x.1 x.2 = max_pair_dist coords := by
      rw [← hfst]
      unfold best_pair
      exact hx2.symm
    refine ⟨hm1, hm2, hdx, ?_⟩
    intro q1 hq1 q2 hq2
    rw [hdx]
    exact max_pair_dist_ge coords q1 q2 hq1 hq2

lemma select_fold_sound (vs : List StreakFragment) (l : List (List ℕ)) :
    ∀ st : ℝ × Option (List (ℚ × ℚ)),
      st.1 ≤ (l.foldl (fun st g =>
          if 2 ≤ (all_coords vs g).length then
            (if st.1 < max_pair_dist (all_coords vs g) then
              (max_pair_dist (all_coords vs g), some (all_coords vs g))
            else st)
          else st) st).1 ∧
      (∀ g ∈ l, 2 ≤ (all_coords vs g).length →
        max_pair_dist (all_coords vs g) ≤ (l.foldl (fun st g =>
          if 2 ≤ (all_coords vs g).length then
            (if st.1 < max_pair_dist (all_coords vs g) then
              (max_pair_dist (all_coords vs g), some (all_coords vs g))
            else st)
          else st) st).1) ∧
      ((l.foldl (fun st g =>
          if 2 ≤ (all_coords vs g).length then
            (if st.1 < max_pair_dist (all_coords vs g) then
              (max_pair_dist (all_coords vs g), some (all_coords vs g))
            else st)
          else st) st) = st ∨
        ∃ g ∈ l, (l.foldl (fun st g =>
          if 2 ≤ (all_coords vs g).length then
            (if st.1 < max_pair_dist (all_coords vs g) then
              (max_pair_dist (all_coords vs g), some (all_coords vs g))
            else st)
          else st) st).2 = some (all_coords vs g) ∧
          (l.foldl (fun st g =>
          if 2 ≤ (all_coords vs g).length then
            (if st.1 < max_pair_dist (all_coords vs g) then
              (max_pair_dist (all_coords vs g), some (all_coords vs g))
            else st)
          else st) st).1 = max_pair_dist (all_coords vs g) ∧
          2 ≤ (all_coords vs g).length) := by
  induction l with
  | nil => exact fun st => ⟨le_refl _, fun g hg => absurd hg (List.not_mem_nil g), Or.inl rfl⟩
  | cons y ys ih =>
    intro st
    rw [List.foldl_cons]
    by_cases hlen : 2 ≤ (all_coords vs y).length
    · rw [if_pos hlen]
      by_cases hy : st.1 < max_pair_dist (all_coords vs y)
      · rw [if_pos hy]
        obtain ⟨ih1, ih2, ih3⟩ := ih (max_pair_dist (all_coords vs y), some (all_coords vs y))
        refine ⟨le_trans hy.le ih1, ?_, ?_⟩
        · intro g hg hg2
          rcases List.mem_cons.mp hg with h | h
          · rw [h]
            exact ih1
          · exact ih2 g h hg2
        · rcases ih3 with h | ⟨g, hg, h1, h2, h3⟩
          · exact Or.inr ⟨y, List.mem_cons_self y ys, by rw [h], by rw [h], hlen⟩
          · exact Or.inr ⟨g, List.mem_cons_of_mem y hg, h1, h2, h3⟩
      · rw [if_neg hy]
        push_neg at hy
        obtain ⟨ih1, ih2, ih3⟩ := ih st
        refine ⟨ih1, ?_, ?_⟩
        · intro g hg hg2
          rcases List.mem_cons.mp hg with h | h
          · rw [h]
            exact le_trans hy ih1
          · exact ih2 g h hg2
        · rcases ih3 with h | ⟨g, hg, h1, h2, h3⟩
          · exact Or.inl h
          · exact Or.inr ⟨g, List.mem_cons_of_mem y hg, h1, h2, h3⟩
    · rw [if_neg hlen]
      obtain ⟨ih1, ih2, ih3⟩ := ih st
      refine ⟨ih1, ?_, ?_⟩
      · intro g hg hg2
        rcases List.mem_cons.mp hg with h | h
        · exact absurd hg2 (by rw [h]; exact hlen)
        · exact ih2 g h hg2
      · rcases ih3 with h | ⟨g, hg, h1, h2, h3⟩
        · exact Or.inl h
        · exact Or.inr ⟨g, List.mem_cons_of_mem y hg, h1, h2, h3⟩

lemma select_group_sound (vs : List StreakFragment) (groups : List (List ℕ))
    (coords : List (ℚ × ℚ)) (h : (select_group vs groups).2 = some coords) :
    ∃ g ∈ groups, coords = all_coords vs g ∧ 2 ≤ coords.length ∧
      (∀ g2 ∈ groups, 2 ≤ (all_coords vs g2).length →
        max_pair_dist (all_coords vs g2) ≤ max_pair_dist coords) := by
  obtain ⟨_, h2, h3⟩ := select_fold_sound vs groups (0, none)
  rcases h3 with heq | ⟨g, hg, hg1, hg2, hg3⟩
  · unfold select_group at h
    rw [heq] at h
    exact Option.noConfusion h
  · unfold select_group at h
    rw [hg1] at h
    have hcg : coords = all_coords vs g := (Option.some_inj.mp h).symm
    refine ⟨g, hg, hcg, by rw [hcg]; exact hg3, ?_⟩
    intro g2 hgg2 hlen2
    have hgg := h2 g2 hgg2 hlen2
    rw [hg2] at hgg
    rw [hcg]
    exact hgg

lemma group_loop_length_mono (vs : List StreakFragment) :
    ∀ (is : List ℕ) (groups : List (List ℕ)) (used : List ℕ),
      groups.length ≤ (group_loop vs is groups used).1.length := by
  intro is
  induction is with
  | nil => exact fun groups used => le_refl _
  | cons i rest ih =>
    intro groups used
    rw [group_loop_cons]
    split_ifs with hi
    · exact ih groups used
    · exact le_trans (by rw [List.length_append]; omega) (ih _ _)

lemma streak_groups_ne_nil (vs : List StreakFragment) (h : vs.length ≠ 0) :
    streak_groups vs ≠ [] := by
  obtain ⟨m, hm⟩ : ∃ m, vs.length = m + 1 := ⟨vs.length - 1, by omega⟩
  unfold streak_groups
  rw [hm, List.range_succ_eq_map, group_loop_cons, if_neg (List.not_mem_nil 0)]
  intro hc
  have := group_loop_length_mono vs ((List.range m).map Nat.succ)
    ([] ++ [group_of vs [] 0]) ([] ++ group_of vs [] 0)
  rw [hc] at this
  simp at this

/-- C3: when exactly one fragment survives the min_length filter the
resolver returns that fragment's own endpoints; with at least two surviving
fragments, whenever the selection fold picks a coordinate set and the
farthest-pair scan picks a pair, the resolver returns that pair, the chosen
set is the coordinates of a group whose maximum pairwise distance is at
least that of every other scoreable group, and the returned two points
belong to the chosen group and are mutually farthest apart. -/
theorem group_selection_spec (streaks : List StreakFragment) :
    ((valid_streaks streaks).length = 1 →
      detect_streak_endpoints streaks =
        some ((((valid_streaks streaks).headD default).x_start,
               ((valid_streaks streaks).headD default).y_start),
              (((valid_streaks streaks).headD default).x_end,
               ((valid_streaks streaks).headD default).y_end))) ∧
    (2 ≤ (valid_streaks streaks).length →
      ∀ coords p,
        (select_group (valid_streaks streaks)
          (streak_groups (valid_streaks streaks))).2 = some coords →
        (best_pair coords).2 = some p →
        detect_streak_endpoints streaks = some p ∧
        (∃ g ∈ streak_groups (valid_streaks streaks),
          coords = all_coords (valid_streaks streaks) g ∧
          ∀ g2 ∈ streak_groups (valid_streaks streaks),
            2 ≤ (all_coords (valid_streaks streaks) g2).length →
            max_pair_dist (all_coords (valid_streaks streaks) g2) ≤
              max_pair_dist coords) ∧
        p.1 ∈ coords ∧ p.2 ∈ coords ∧
        dist_pt p.1 p.2 = max_pair_dist coords ∧
        (∀ q1 ∈ coords, ∀ q2 ∈ coords, dist_pt q1 q2 ≤ dist_pt p.1 p.2)) := by
  constructor
  · intro h1
    have hvne : valid_streaks streaks ≠ [] := by
      intro hc
      rw [hc] at h1
      simp at h1
    have hsne : streaks ≠ [] := by
      intro hc
      apply hvne
      rw [hc]
      rfl
    unfold detect_streak_endpoints
    rw [if_neg hsne, if_neg hvne, if_pos h1]
  · intro h2 coords p hsel hbest
    have hvne : valid_streaks streaks ≠ [] := by
      intro hc
      rw [hc] at h2
      simp at h2
    have hsne : streaks ≠ [] := by
      intro hc
      apply hvne
      rw [hc]
      rfl
    have hlen1 : (valid_streaks streaks).length ≠ 1 := by omega
    have hgne : streak_groups (valid_streaks streaks) ≠ [] :=
      streak_groups_ne_nil _ (by omega)
    obtain ⟨hb1, hb2, hb3, hb4⟩ := best_pair_sound coords p hbest
    obtain ⟨g, hg, hg1, _, hg3⟩ := select_group_sound _ _ _ hsel
    refine ⟨?_, ⟨g, hg, hg1, hg3⟩, hb1, hb2, hb3, hb4⟩
    unfold detect_streak_endpoints
    rw [if_neg hsne, if_neg hvne, if_neg hlen1]
    simp only [if_neg hgne]
    rw [hsel]
    dsimp only
    rw [hbest]

/-- Helper for evaluating a Euclidean distance whose squared value is a
perfect square. -/
lemma dist_pt_eval (p q : ℚ × ℚ) (r : ℝ) (h0 : 0 ≤ r)
    (h : ((sq_dist p q : ℚ) : ℝ) = r ^ 2) : dist_pt p q = r := by
  unfold dist_pt
  rw [h]
  exact Real.sqrt_sq h0

/-- The direction angle of a left-to-right horizontal fragment is 0. -/
lemma get_angle_horizontal (s : StreakFragment) (hy : s.y_end = s.y_start)
    (hx : s.x_start < s.x_end) : get_angle s = 0 := by
  have h1 : ((s.y_end : ℚ) : ℝ) - ((s.y_start : ℚ) : ℝ) = 0 := by
    rw [hy]
    ring
  have h2 : (0 : ℝ) < ((s.x_end : ℚ) : ℝ) - ((s.x_start : ℚ) : ℝ) := by
    rw [sub_pos]
    exact_mod_cast hx
  simp only [get_angle, arctan2]
  rw [h1, if_pos h2, zero_div, Real.arctan_zero, zero_mul, zero_div,
    if_neg (lt_irrefl (0 : ℝ))]

/-- First fragment of the C3 witness scene: a horizontal segment from (0,0)
to (10,0). -/
def streak_a : StreakFragment := ⟨0, 0, 10, 0, [0, 10], [0, 0], 10⟩

/-- Second fragment of the C3 witness scene: a collinear horizontal segment
from (110,0) to (120,0), 100 px from the first. -/
def streak_b : StreakFragment := ⟨110, 0, 120, 0, [110, 120], [0, 0], 10⟩

/-- Witness for C3 on the stitching scene: the two fragments form one group,
the selection fold picks its coordinates, the farthest-pair scan picks
(0,0)-(120,0), and the resolver returns exactly that pair, which spans both
fragments' extremes. -/
theorem group_selection_spec_witness :
    2 ≤ (valid_streaks [streak_a, streak_b]).length ∧
    detect_streak_endpoints [streak_a, streak_b] = some ((0, 0), (120, 0)) ∧
    ((0 : ℚ), (0 : ℚ)) ∈ all_coords [streak_a, streak_b] [0, 1] ∧
    ((120 : ℚ), (0 : ℚ)) ∈ all_coords [streak_a, streak_b] [0, 1] ∧
    dist_pt (0, 0) (120, 0) = max_pair_dist (all_coords [streak_a, streak_b] [0, 1]) := by
  have hvs : valid_streaks [streak_a, streak_b] = [streak_a, streak_b] := by decide
  have ha : get_angle streak_a = 0 := get_angle_horizontal _ rfl (by decide)
  have hb : get_angle streak_b = 0 := get_angle_horizontal _ rfl (by decide)
  have hdiff : angle_diff 0 0 = 0 := by
    unfold angle_diff
    rw [sub_self, abs_zero]
    rw [min_eq_left (by norm_num : (0 : ℝ) ≤ 180 - 0)]
  have hcands : angle_candidates [streak_a, streak_b] [] 0 = [1] := by
    unfold angle_candidates
    rw [show List.range ([streak_a, streak_b].length) = [0, 1] from rfl,
      List.filter_cons, List.filter_cons, List.filter_nil]
    split_ifs with h0 h1 h1
    · exact absurd (of_decide_eq_true h0).1 (by norm_num)
    · exact absurd (of_decide_eq_true h0).1 (by norm_num)
    · rfl
    · refine absurd (decide_eq_true ⟨by norm_num, by simp, ?_⟩) h1
      rw [show List.getD [streak_a, streak_b] 0 default = streak_a from rfl,
        show List.getD [streak_a, streak_b] 1 default = streak_b from rfl, ha, hb, hdiff]
      norm_num [angle_tolerance]
  have e4 : dist_pt (streak_a.x_end, streak_a.y_end) (streak_b.x_start, streak_b.y_start) =
      100 :=
    dist_pt_eval _ _ 100 (by norm_num) (by norm_num [sq_dist, streak_a, streak_b])
  have hd : min_endpoint_dist (List.getD [streak_a, streak_b] 0 default)
      (List.getD [streak_a, streak_b] 1 default) ≤ ((max_stitch_distance : ℚ) : ℝ) := by
    show min_endpoint_dist streak_a streak_b ≤ ((max_stitch_distance : ℚ) : ℝ)
    unfold min_endpoint_dist
    refine le_trans (le_trans (min_le_right _ _) (min_le_left _ _)) ?_
    rw [e4]
    norm_num [max_stitch_distance]
  have hg0 : group_of [streak_a, streak_b] [] 0 = [0, 1] := by
    unfold group_of
    rw [hcands, stitch_filter_cons, if_pos ⟨0, List.mem_singleton_self 0, hd⟩,
      stitch_filter_nil]
    rfl
  have hgroups : streak_groups [streak_a, streak_b] = [[0, 1]] := by
    unfold streak_groups
    rw [show List.range ([streak_a, streak_b].length) = [0, 1] from rfl,
      group_loop_cons, if_neg (List.not_mem_nil 0), hg0,
      group_loop_cons, if_pos (show (1 : ℕ) ∈ [] ++ [0, 1] by simp),
      group_loop_nil]
    rfl
  have hcoords : all_coords [streak_a, streak_b] [0, 1] =
      [((0 : ℚ), (0 : ℚ)), (10, 0), (110, 0), (120, 0)] := by decide
  have e1 : dist_pt ((0 : ℚ), (0 : ℚ)) (10, 0) = 10 :=
    dist_pt_eval _ _ 10 (by norm_num) (by norm_num [sq_dist])
  have e2 : dist_pt ((0 : ℚ), (0 : ℚ)) (110, 0) = 110 :=
    dist_pt_eval _ _ 110 (by norm_num) (by norm_num [sq_dist])
  have e3 : dist_pt ((0 : ℚ), (0 : ℚ)) (120, 0) = 120 :=
    dist_pt_eval _ _ 120 (by norm_num) (by norm_num [sq_dist])
  have e4b : dist_pt ((10 : ℚ), (0 : ℚ)) (110, 0) = 100 :=
    dist_pt_eval _ _ 100 (by norm_num) (by norm_num [sq_dist])
  have e5 : dist_pt ((10 : ℚ), (0 : ℚ)) (120, 0) = 110 :=
    dist_pt_eval _ _ 110 (by norm_num) (by norm_num [sq_dist])
  have e6 : dist_pt ((110 : ℚ), (0 : ℚ)) (120, 0) = 10 :=
    dist_pt_eval _ _ 10 (by norm_num) (by norm_num [sq_dist])
  have hpairs : pairs [((0 : ℚ), (0 : ℚ)), (10, 0), (110, 0), (120, 0)] =
      [(((0 : ℚ), (0 : ℚ)), ((10 : ℚ), (0 : ℚ))), ((0, 0), (110, 0)), ((0, 0), (120, 0)),
       ((10, 0), (110, 0)), ((10, 0), (120, 0)), ((110, 0), (120, 0))] := by decide
  have hmax : max_pair_dist [((0 : ℚ), (0 : ℚ)), (10, 0), (110, 0), (120, 0)] = 120 := by
    unfold max_pair_dist
    rw [hpairs, List.foldl_cons, List.foldl_cons, List.foldl_cons, List.foldl_cons,
      List.foldl_cons, List.foldl_cons, List.foldl_nil]
    dsimp only
    rw [e1, e2, e3, e4b, e5, e6]
    norm_num
  have hsel : (select_group (valid_streaks [streak_a, streak_b])
      (streak_groups (valid_streaks [streak_a, streak_b]))).2 =
      some [((0 : ℚ), (0 : ℚ)), (10, 0), (110, 0), (120, 0)] := by
    rw [hvs, hgroups]
    unfold select_group
    rw [List.foldl_cons, List.foldl_nil]
    dsimp only
    rw [hcoords, if_pos (show (2 : ℕ) ≤
        List.length [((0 : ℚ), (0 : ℚ)), (10, 0), (110, 0), (120, 0)] by norm_num),
      hmax, if_pos (show (0 : ℝ) < 120 by norm_num)]
  have hbest : (best_pair [((0 : ℚ), (0 : ℚ)), (10, 0), (110, 0), (120, 0)]).2 =
      some (((0 : ℚ), (0 : ℚ)), ((120 : ℚ), (0 : ℚ))) := by
    unfold best_pair
    rw [hpairs, List.foldl_cons, List.foldl_cons, List.foldl_cons, List.foldl_cons,
      List.foldl_cons, List.foldl_cons, List.foldl_nil]
    dsimp only
    rw [e1, e2, e3, e4b, e5, e6]
    norm_num
  have h2 : 2 ≤ (valid_streaks [streak_a, streak_b]).length := by
    rw [hvs]
    norm_num
  have happ := (group_selection_spec [streak_a, streak_b]).2 h2
    [((0 : ℚ), (0 : ℚ)), (10, 0), (110, 0), (120, 0)]
    (((0 : ℚ), (0 : ℚ)), ((120 : ℚ), (0 : ℚ))) hsel hbest
  refine ⟨h2, happ.1, ?_, ?_, ?_⟩
  · rw [hcoords]
    exact happ.2.2.1
  · rw [hcoords]
    exact happ.2.2.2.1
  · rw [hcoords]
    exact happ.2.2.2.2.1

end Fotometria
